import Mathlib

/-!
Verification of the Tableau → Microsoft Fabric SQL converter.

This file gives a shallow embedding of the converter's core pipeline and
proves or refutes the specification's claims about it.  Two variants of the
pipeline exist in the repository and both are modelled:

* `Main.*` — the `main/components` variant: `RegexRemapper.remap`
  (Regex_remapping.py) plus the thin `SQLConverter.convert_query` wrapper
  (sql_parser.py).
* `AIBase.*` — the `AI_Base/components` variant: `_preprocess_with_regex`,
  the token-walking structural converter (`_convert_statement`,
  `_convert_function`, `_scan_for_functions`), the line-attribution pass
  `_attach_flag_line_numbers`, and its `convert_query` (sql_parser.py), with
  `TableauFabricMappings` (sql_mappings.py).

The Python source works by applying compiled regular expressions.  Each
regex used by the converter is embedded as an executable deterministic
matcher over `List Char`; the generic drivers `subst` / `substF` / `search`
model `pattern.sub` and `pattern.search` (left-to-right scan, non-
overlapping matches, scanning resumes after each match).  Word boundaries
(`\b`), Python whitespace (`\s`), `re.IGNORECASE` and the greedy/lazy
capture behaviour of the specific patterns in the source are reproduced;
the deterministic capture rule implemented by `lazyCapture` is exactly the
backtracking outcome of the patterns `\s*([^X]+?)\s*` used in the source
(greedy leading `\s*`, minimal body, trailing `\s*` covering the rest).

External library calls (`sqlparse.parse`, `sqlparse.format`) are modelled
as oracle parameters of type `String → Except String _`: an `Except.error`
models the library raising an exception; Python's `try/except` blocks are
modelled by matching on the oracle's result.  Python's mutable
`ConversionMetrics` object is threaded explicitly; its `set` of unsupported
functions is modelled as an insertion-ordered duplicate-free list (the set
is only ever tested for emptiness, membership, and sorted).
-/

set_option maxRecDepth 8192

namespace TFSQL

/-- The single-quote character (written via its code point, `'`). -/
def sqc : Char := Char.ofNat 39

/-- The opening-brace character. -/
def lbc : Char := Char.ofNat 123

/-- Python's `str.upper()` (per-character; the converter's names are
ASCII). -/
def pyUpper (s : String) : String := String.mk (s.data.map Char.toUpper)

/-- Python's `\w`: alphanumeric or underscore (ASCII model). -/
def isWordChar (c : Char) : Bool := c.isAlphanum || c = '_'

/-- Python's `\s`: space, tab, newline, carriage return, vertical tab, form feed. -/
def isPySpace (c : Char) : Bool :=
  c = ' ' || c = '\t' || c = '\n' || c = '\r' || c = Char.ofNat 11 || c = Char.ofNat 12

/-- Case-insensitive character comparison, as under `re.IGNORECASE`. -/
def ciEq (a b : Char) : Bool := a.toLower == b.toLower

/-- Match a literal (a `re.escape`d text) case-insensitively at the head of
the input; return the rest of the input on success. -/
def ciLit : List Char → List Char → Option (List Char)
  | [], s => some s
  | _ :: _, [] => none
  | p :: ps, c :: cs => if ciEq p c then ciLit ps cs else none

/-- Drop leading Python whitespace: one `\s*` step of a pattern. -/
def dropWs (l : List Char) : List Char := l.dropWhile isPySpace

/-- Drop trailing Python whitespace. -/
def dropTrailingWs (l : List Char) : List Char := (l.reverse.dropWhile isPySpace).reverse

/-- Python `str.strip()`. -/
def pyStrip (l : List Char) : List Char := dropTrailingWs (l.dropWhile isPySpace)

/-- The capture of `\s*([^X]+?)\s*` matched against the whole text `u`
(where `u` contains no `X` by construction).  The regex engine's
backtracking resolves this deterministically: the leading `\s*` is greedy,
the lazy body is the remainder with its trailing whitespace given to the
final `\s*`; when `u` is all whitespace the leading `\s*` gives back one
character for the mandatory body.  `none` when `u` is empty. -/
def lazyCapture (u : List Char) : Option (List Char) :=
  match u.dropWhile isPySpace with
  | [] =>
    match u.getLast? with
    | some c => some [c]
    | none => none
  | c :: cs => some (dropTrailingWs (c :: cs))

/-- A (line number, reason) flag, as recorded by the converter. -/
abbrev Flag := Nat × String

/-- A compiled-pattern matcher: given whether the character before the
current position is a word character (for `\b`) and the text from the
current position, return the replacement text and the rest of the input
after the match, or `none` when the pattern does not match here. -/
abbrev Matcher := Bool → List Char → Option (List Char × List Char)

/-- A matcher whose replacement callback also records flags
(`_split_rewrite` in the source records flags from inside `re.sub`). -/
abbrev FMatcher := Bool → List Char → Option (List Char × List Char × List Flag)

/-- One `pattern.sub` pass: scan left to right, replace each match, resume
scanning right after the matched text; the word-boundary state for the next
position is taken from the last character of the *original* matched text,
as the regex engine scans the original string.  Fuel is the initial length
(each step consumes at least one character). -/
def substGo (m : Matcher) : Nat → Bool → List Char → List Char
  | 0, _, s => s
  | _ + 1, _, [] => []
  | fuel + 1, prev, c :: cs =>
    match m prev (c :: cs) with
    | some (repl, rest) =>
      let k := max ((c :: cs).length - rest.length) 1
      let lastW := match ((c :: cs).take k).getLast? with
        | some d => isWordChar d
        | none => false
      repl ++ substGo m fuel lastW ((c :: cs).drop k)
    | none => c :: substGo m fuel (isWordChar c) cs

/-- `pattern.sub` over a whole text. -/
def subst (m : Matcher) (s : List Char) : List Char := substGo m s.length false s

/-- `pattern.sub` with a flag-recording callback (flags in match order). -/
def substFGo (m : FMatcher) : Nat → Bool → List Char → List Char × List Flag
  | 0, _, s => (s, [])
  | _ + 1, _, [] => ([], [])
  | fuel + 1, prev, c :: cs =>
    match m prev (c :: cs) with
    | some (repl, rest, fl) =>
      let k := max ((c :: cs).length - rest.length) 1
      let lastW := match ((c :: cs).take k).getLast? with
        | some d => isWordChar d
        | none => false
      let r := substFGo m fuel lastW ((c :: cs).drop k)
      (repl ++ r.1, fl ++ r.2)
    | none =>
      let r := substFGo m fuel (isWordChar c) cs
      (c :: r.1, r.2)

/-- `pattern.sub` with flags, over a whole text. -/
def substF (m : FMatcher) (s : List Char) : List Char × List Flag :=
  substFGo m s.length false s

/-- `pattern.search`: does the pattern match at some position?  (All the
patterns in the source need at least one character, so the empty suffix
never matches.) -/
def searchGo (m : Matcher) : Nat → Bool → List Char → Bool
  | _, _, [] => false
  | 0, _, _ => false
  | fuel + 1, prev, c :: cs => (m prev (c :: cs)).isSome || searchGo m fuel (isWordChar c) cs

/-- `pattern.search` over a whole text. -/
def search (m : Matcher) (s : List Char) : Bool := searchGo m s.length false s

/-- Matcher for the pattern `//` (the Tableau comment marker). -/
def mComment : Matcher := fun _ s =>
  match s with
  | '/' :: '/' :: rest => some (['-', '-'], rest)
  | _ => none

/-- Matcher for `\bW\b` (case-insensitive), e.g. `\bTRUE\b`. -/
def mWordRepl (w repl : List Char) : Matcher := fun prev s =>
  if prev then none
  else
    match ciLit w s with
    | none => none
    | some rest =>
      match rest with
      | [] => some (repl, [])
      | c :: _ => if isWordChar c then none else some (repl, rest)

/-- Matcher for `\bW\s*\(` (case-insensitive); the replacement carries its
own `(`, as in `'IIF('`. -/
def mFunOpen (w repl : List Char) : Matcher := fun prev s =>
  if prev then none
  else
    match ciLit w s with
    | none => none
    | some rest =>
      match dropWs rest with
      | '(' :: r2 => some (repl, r2)
      | _ => none

/-- Matcher for `\bW\s*\(\s*\)` (case-insensitive), e.g. `\bNOW\s*\(\s*\)`. -/
def mNullaryCall (w repl : List Char) : Matcher := fun prev s =>
  if prev then none
  else
    match ciLit w s with
    | none => none
    | some rest =>
      match dropWs rest with
      | '(' :: r2 =>
        match dropWs r2 with
        | ')' :: r3 => some (repl, r3)
        | _ => none
      | _ => none

/-- Matcher for `\[([^\]]+)\]`: a bracketed identifier, replaced by its body. -/
def mBracketIdent : Matcher := fun _ s =>
  match s with
  | '[' :: rest =>
    let u := rest.takeWhile (fun c => !(c == ']'))
    match rest.dropWhile (fun c => !(c == ']')) with
    | ']' :: r2 => if u.isEmpty then none else some (u, r2)
    | _ => none
  | _ => none

/-- Matcher for `\bW\s*\(\s*([^\)]+?)\s*\)` (case-insensitive): the
CAST-producing rewrites `INT`/`STR`/`FLOAT`/`DATE` and the `MEDIAN` search
pattern.  `mk` builds the replacement from the capture. -/
def mCastArg (w : List Char) (mk : List Char → List Char) : Matcher := fun prev s =>
  if prev then none
  else
    match ciLit w s with
    | none => none
    | some rest =>
      match dropWs rest with
      | '(' :: r2 =>
        let u := r2.takeWhile (fun c => !(c == ')'))
        match r2.dropWhile (fun c => !(c == ')')) with
        | ')' :: r3 =>
          match lazyCapture u with
          | some cap => some (mk cap, r3)
          | none => none
        | _ => none
      | _ => none

/-- A quoted literal `'d'` as replacement text. -/
def quoted (d : List Char) : List Char := sqc :: (d ++ [sqc])

/-- The tail `\s*\)` (three two-argument patterns), or the CONTAINS tail
`\s*(?:,\s*[^\)]*)?\)` when `allowThird` is set. -/
def closeTail (allowThird : Bool) (r : List Char) : Option (List Char) :=
  match dropWs r with
  | ')' :: rest => some rest
  | ',' :: r2 =>
    if allowThird then
      match (dropWs r2).dropWhile (fun c => !(c == ')')) with
      | ')' :: rest => some rest
      | _ => none
    else none
  | _ => none

/-- Matcher for `\bW\s*\(\s*([^,]+?)\s*,\s*'([^']*)'` followed by
`closeTail` — the shape of the STARTSWITH/ENDSWITH/CONTAINS/FIND patterns.
`mk` builds the replacement from the stripped first capture and the quoted
second capture. -/
def mTwoArgQuoted (w : List Char) (allowThird : Bool)
    (mk : List Char → List Char → List Char) : Matcher := fun prev s =>
  if prev then none
  else
    match ciLit w s with
    | none => none
    | some rest =>
      match dropWs rest with
      | '(' :: r2 =>
        let u := r2.takeWhile (fun c => !(c == ','))
        match r2.dropWhile (fun c => !(c == ',')) with
        | ',' :: r3 =>
          match lazyCapture u with
          | none => none
          | some cap =>
            match dropWs r3 with
            | q :: r4 =>
              if q = sqc then
                let d := r4.takeWhile (fun c => !(c == sqc))
                match r4.dropWhile (fun c => !(c == sqc)) with
                | q2 :: r5 =>
                  if q2 = sqc then
                    match closeTail allowThird r5 with
                    | some rest2 => some (mk (pyStrip cap) d, rest2)
                    | none => none
                  else none
                | [] => none
              else none
            | [] => none
        | _ => none
      | _ => none

/-- Capture-only matcher for the SPLIT pattern
`\bSPLIT\s*\(\s*([^,]+?)\s*,\s*'([^']*)'\s*,\s*(\d+)\s*\)`
(case-insensitive): returns `(group1, delim, digits, rest)`. -/
def mSplitCapture (prev : Bool) (s : List Char) :
    Option (List Char × List Char × List Char × List Char) :=
  if prev then none
  else
    match ciLit "SPLIT".data s with
    | none => none
    | some rest =>
      match dropWs rest with
      | '(' :: r2 =>
        let u := r2.takeWhile (fun c => !(c == ','))
        match r2.dropWhile (fun c => !(c == ',')) with
        | ',' :: r3 =>
          match lazyCapture u with
          | none => none
          | some cap =>
            match dropWs r3 with
            | q :: r4 =>
              if q = sqc then
                let d := r4.takeWhile (fun c => !(c == sqc))
                match r4.dropWhile (fun c => !(c == sqc)) with
                | q2 :: r5 =>
                  if q2 = sqc then
                    match dropWs r5 with
                    | ',' :: r6 =>
                      let r7 := dropWs r6
                      let digits := r7.takeWhile Char.isDigit
                      match r7.dropWhile Char.isDigit with
                      | r8 =>
                        if digits.isEmpty then none
                        else
                          match dropWs r8 with
                          | ')' :: r9 => some (cap, d, digits, r9)
                          | _ => none
                    | _ => none
                  else none
                | [] => none
              else none
            | [] => none
        | _ => none
      | _ => none

/-- Python's `str.split('\n')`: split into lines (at least one line, even
for the empty text).  Fuel is the length: each step consumes the line and
its newline. -/
def splitLinesGo : Nat → List Char → List (List Char)
  | 0, l => [l]
  | fuel + 1, l =>
    let a := l.takeWhile (fun c => !(c == '\n'))
    match l.dropWhile (fun c => !(c == '\n')) with
    | [] => [a]
    | _ :: rest => a :: splitLinesGo fuel rest

/-- Python's `text.split('\n')`. -/
def splitLines (l : List Char) : List (List Char) := splitLinesGo l.length l

/-- `enumerate(lines, start=1)` scan of `RegexRemapper._flag_lines` and of
`_attach_flag_line_numbers`: a `(lineNumber, reason)` flag for every line
the predicate (the compiled pattern's `search`) accepts. -/
def flagLinesGo (pred : List Char → Bool) (reason : String) :
    Nat → List (List Char) → List Flag
  | _, [] => []
  | i, ln :: ls =>
    (if pred ln then [(i, reason)] else []) ++ flagLinesGo pred reason (i + 1) ls

/-- All flags produced by scanning the lines of a text with a pattern. -/
def flagLinesBy (pred : List Char → Bool) (reason : String) (text : List Char) :
    List Flag :=
  flagLinesGo pred reason 1 (splitLines text)

/-- The dynamically built flag pattern of `_split_rewrite`:
`\bSPLIT\s*\(\s*{re.escape(s)}\s*,\s*'{re.escape(delim)}'\s*,\s*{idx}\s*\)`
(case-insensitive; the escaped captures are literals). -/
def mSplitFlagPat (sv d idx : List Char) : Matcher := fun prev s =>
  if prev then none
  else
    match ciLit "SPLIT".data s with
    | none => none
    | some rest =>
      match dropWs rest with
      | '(' :: r2 =>
        match ciLit sv (dropWs r2) with
        | none => none
        | some r3 =>
          match dropWs r3 with
          | ',' :: r4 =>
            match dropWs r4 with
            | q :: r5 =>
              if q = sqc then
                match ciLit d r5 with
                | none => none
                | some r6 =>
                  match r6 with
                  | q2 :: r7 =>
                    if q2 = sqc then
                      match dropWs r7 with
                      | ',' :: r8 =>
                        match ciLit idx (dropWs r8) with
                        | none => none
                        | some r9 =>
                          match dropWs r9 with
                          | ')' :: r10 => some ([], r10)
                          | _ => none
                      | _ => none
                    else none
                  | [] => none
              else none
            | [] => none
          | _ => none
      | _ => none

/-- The reason recorded for a SPLIT call the engine refuses to rewrite. -/
def splitReason : String := "SPLIT with index != 1 requires manual rewrite"

/-- The LOD pattern `\{\s*(FIXED|INCLUDE|EXCLUDE)\b` (case-insensitive),
identical in both variants. -/
def mLod : Matcher := fun _ s =>
  match s with
  | c :: rest =>
    if c = lbc then
      let r := dropWs rest
      let tryWord : List Char → Option (List Char × List Char) := fun w =>
        match ciLit w r with
        | none => none
        | some r2 =>
          match r2 with
          | [] => some ([], [])
          | d :: _ => if isWordChar d then none else some ([], r2)
      match tryWord "FIXED".data with
      | some res => some res
      | none =>
        match tryWord "INCLUDE".data with
        | some res => some res
        | none => tryWord "EXCLUDE".data
    else none
  | [] => none

namespace Main

/-- `_split_rewrite` (Regex_remapping.py): rewrite `SPLIT(s, 'd', 1)` to
`SUBSTRING(s, 1, CHARINDEX('d', s) - 1)`; leave any other index untouched
and flag every line of `sql0` (the text the SPLIT pass runs on, the
closure variable `sql`) matching the call's pattern. -/
def mSplitRewrite (sql0 : List Char) : FMatcher := fun prev s =>
  match mSplitCapture prev s with
  | none => none
  | some (g1, d, idx, rest) =>
    let sv := pyStrip g1
    let idxs := pyStrip idx
    if idxs = ['1'] then
      some ("SUBSTRING(".data ++ sv ++ ", 1, CHARINDEX(".data ++ quoted d ++
        ", ".data ++ sv ++ ") - 1)".data, rest, [])
    else
      some (s.take (s.length - rest.length), rest,
        flagLinesBy (fun ln => search (mSplitFlagPat sv d idxs) ln) splitReason sql0)

/-- The `\bMEDIAN\s*\(\s*([^\)]+?)\s*\)` search pattern (`re_median`). -/
def mMedianCall : Matcher := mCastArg "MEDIAN".data (fun _ => [])

/-- The `\bMEDIAN\s*\(` per-line pattern used by `_flag_lines` for MEDIAN. -/
def mMedianOpen : Matcher := mFunOpen "MEDIAN".data []

/-- Reason recorded for MEDIAN by `RegexRemapper.remap`. -/
def medianReason : String := "MEDIAN requires PERCENTILE_CONT(0.5) WITHIN GROUP rewrite"

/-- Reason recorded for LOD expressions by `RegexRemapper.remap`. -/
def lodReason : String := "Tableau LOD expressions are not supported"

/-- The STARTSWITH replacement rule: `CHARINDEX('prefix', s) = 1`. -/
def mStartswith : Matcher :=
  mTwoArgQuoted "STARTSWITH".data false
    (fun s d => "CHARINDEX(".data ++ quoted d ++ ", ".data ++ s ++ ") = 1".data)

/-- The ENDSWITH replacement rule: `RIGHT(s, LEN('suffix')) = 'suffix'`. -/
def mEndswith : Matcher :=
  mTwoArgQuoted "ENDSWITH".data false
    (fun s d => "RIGHT(".data ++ s ++ ", LEN(".data ++ quoted d ++ ")) = ".data ++ quoted d)

/-- The CONTAINS replacement rule: `CHARINDEX('needle', s) > 0` (an optional
third argument is consumed by the pattern). -/
def mContains : Matcher :=
  mTwoArgQuoted "CONTAINS".data true
    (fun s d => "CHARINDEX(".data ++ quoted d ++ ", ".data ++ s ++ ") > 0".data)

/-- The FIND replacement rule: `CHARINDEX('needle', s)`. -/
def mFind : Matcher :=
  mTwoArgQuoted "FIND".data false
    (fun s d => "CHARINDEX(".data ++ quoted d ++ ", ".data ++ s ++ ")".data)

/-- `RegexRemapper.remap` (Regex_remapping.py): the ordered regex pass
sequence of the main variant, returning the rewritten text and the flags
collected by the SPLIT rule, the MEDIAN rule and the LOD rule, in that
order (the order the source appends them). -/
def remap (varcharLen : Nat) (sql : String) : String × List Flag :=
  if sql = "" then (sql, [])
  else
    let s1 := subst mComment sql.data
    let s2 := subst (mWordRepl "TRUE".data "1".data) s1
    let s3 := subst (mWordRepl "FALSE".data "0".data) s2
    let s4 := subst (mFunOpen "IF".data "IIF(".data) s3
    let s5 := subst (mFunOpen "IFNULL".data "ISNULL(".data) s4
    let s6 := subst (mNullaryCall "NOW".data "GETDATE()".data) s5
    let s7 := subst (mNullaryCall "TODAY".data "CAST(GETDATE() AS DATE)".data) s6
    let s8 := subst (mFunOpen "LENGTH".data "LEN(".data) s7
    let s9 := subst (mFunOpen "SUBSTR".data "SUBSTRING(".data) s8
    let s10 := subst (mFunOpen "MAKEDATE".data "DATEFROMPARTS(".data) s9
    let s11 := subst (mFunOpen "MAKEDATETIME".data "DATETIMEFROMPARTS(".data) s10
    let s12 := subst (mFunOpen "LN".data "LOG(".data) s11
    let s13 := subst (mFunOpen "LOG".data "LOG10(".data) s12
    let s14 := subst mBracketIdent s13
    let s15 := subst (mCastArg "INT".data
      (fun c => "CAST(".data ++ c ++ " AS INT)".data)) s14
    let s16 := subst (mCastArg "STR".data
      (fun c => "CAST(".data ++ c ++ (" AS VARCHAR(" ++ toString varcharLen ++ "))").data)) s15
    let s17 := subst (mCastArg "FLOAT".data
      (fun c => "CAST(".data ++ c ++ " AS FLOAT)".data)) s16
    let s18 := subst (mCastArg "DATE".data
      (fun c => "CAST(".data ++ c ++ " AS DATE)".data)) s17
    let sp := substF (mSplitRewrite s18) s18
    let s19 := sp.1
    let s20 := subst mStartswith s19
    let s21 := subst mEndswith s20
    let s22 := subst mContains s21
    let s23 := subst mFind s22
    let f2 := if search mMedianCall s23 then
        flagLinesBy (fun ln => search mMedianOpen ln) medianReason s23
      else []
    let f3 := if search mLod s23 then
        flagLinesBy (fun ln => search mLod ln) lodReason s23
      else []
    (String.mk s23, sp.2 ++ f2 ++ f3)

/-- `apply_regex_remapping` (Regex_remapping.py): one-shot remap with the
default `varchar_default_len = 20`. -/
def apply_regex_remapping (sql : String) : String × List Flag := remap 20 sql

end Main

/-- The per-category conversion counters (`function_conversions` dict with
fixed keys DATE/STRING/AGGREGATE/LOGICAL/MATHEMATICAL/OTHER). -/
structure FunctionConversions where
  date : Nat
  string : Nat
  aggregate : Nat
  logical : Nat
  mathematical : Nat
  other : Nat
deriving DecidableEq

/-- A function category, as used by `add_function_conversion` and
`_get_function_category`. -/
inductive FunctionCategory where
  | date | string | aggregate | logical | mathematical | other
deriving DecidableEq

/-- `ConversionMetrics` (sql_parser.py, identical in both variants).  The
Python `set` `unsupported_functions` is modelled as an insertion-ordered
duplicate-free list. -/
structure ConversionMetrics where
  total_statements : Nat
  successful_conversions : Nat
  flagged_statements : Nat
  function_conversions : FunctionConversions
  flagged_lines : List Flag
  unsupported_functions : List String
deriving DecidableEq

/-- `ConversionMetrics.__init__`: all counters zero, collections empty. -/
def ConversionMetrics.init : ConversionMetrics :=
  ⟨0, 0, 0, ⟨0, 0, 0, 0, 0, 0⟩, [], []⟩

/-- `add_successful_conversion`. -/
def ConversionMetrics.add_successful_conversion (m : ConversionMetrics) : ConversionMetrics :=
  { m with successful_conversions := m.successful_conversions + 1 }

/-- `add_flagged_statement`: bump the counter and append the (line, reason). -/
def ConversionMetrics.add_flagged_statement (m : ConversionMetrics)
    (line : Nat) (reason : String) : ConversionMetrics :=
  { m with flagged_statements := m.flagged_statements + 1,
           flagged_lines := m.flagged_lines ++ [(line, reason)] }

/-- `add_function_conversion` (the argument is always one of the fixed keys
here, so the `else OTHER` fallback of the source is the `other` case). -/
def ConversionMetrics.add_function_conversion (m : ConversionMetrics)
    (c : FunctionCategory) : ConversionMetrics :=
  { m with function_conversions :=
    match c with
    | .date => { m.function_conversions with date := m.function_conversions.date + 1 }
    | .string => { m.function_conversions with string := m.function_conversions.string + 1 }
    | .aggregate => { m.function_conversions with aggregate := m.function_conversions.aggregate + 1 }
    | .logical => { m.function_conversions with logical := m.function_conversions.logical + 1 }
    | .mathematical => { m.function_conversions with mathematical := m.function_conversions.mathematical + 1 }
    | .other => { m.function_conversions with other := m.function_conversions.other + 1 } }

/-- `add_unsupported_function`: `set.add` on the insertion-ordered list. -/
def ConversionMetrics.add_unsupported_function (m : ConversionMetrics)
    (f : String) : ConversionMetrics :=
  if m.unsupported_functions.contains f then m
  else { m with unsupported_functions := m.unsupported_functions ++ [f] }

/-- `get_success_rate` (as a rational percentage; 0 when no statements). -/
def ConversionMetrics.get_success_rate (m : ConversionMetrics) : ℚ :=
  if m.total_statements = 0 then 0
  else (m.successful_conversions : ℚ) / (m.total_statements : ℚ) * 100

/-- A Python argument to `convert_query`: a string, or a non-string value
(the guard `not tableau_query or not isinstance(tableau_query, str)` only
distinguishes these two along with the empty string). -/
inductive PyInput where
  | ofString (s : String)
  | notAString
deriving DecidableEq

namespace Main

/-- `SQLConverter.convert_query` (main/components/sql_parser.py).  `prev` is
the converter's metrics object left over from the previous call
(`self.metrics`); the sqlparse formatting block is modelled by `fmtOracle`
(`Except.error` = the library raised, caught by the inner `try` so the
output falls back to the remapped text; an empty parse result also falls
back, which a caller models by an identity-like oracle).  The guarded body
contains no other failing operation, so the outer `except` handler of the
source is unreachable and the function is total. -/
def convert_query (prev : ConversionMetrics)
    (fmtOracle : String → Except String String) (input : PyInput) :
    String × ConversionMetrics × List Flag :=
  match input with
  | .notAString => ("", prev, [])
  | .ofString q =>
    if q = "" then ("", prev, [])
    else
      let m0 := { ConversionMetrics.init with total_statements := 1 }
      let r := apply_regex_remapping q
      let m1 := r.2.foldl (fun acc p => acc.add_flagged_statement p.1 p.2) m0
      let fabric := match fmtOracle r.1 with
        | .ok t => t
        | .error _ => r.1
      let m2 := if m1.flagged_lines.isEmpty && m1.unsupported_functions.isEmpty then
          m1.add_successful_conversion
        else m1
      (fabric, m2, m2.flagged_lines)

end Main

namespace AIBase

/-- `TableauFabricMappings._BASE_FUNCTION_MAPPINGS` (sql_mappings.py).  The
constructor's dictionary comprehension upper-cases the keys, which are
already upper case, so the lookup dictionary equals this list. -/
def base_function_mappings : List (String × String) := [
  ("DATEADD", "DATEADD"),
  ("DATEDIFF", "DATEDIFF"),
  ("DATEPART", "DATEPART"),
  ("DATENAME", "DATENAME"),
  ("NOW", "GETDATE"),
  ("TODAY", "CAST(GETDATE() AS DATE)"),
  ("YEAR", "YEAR"),
  ("MONTH", "MONTH"),
  ("DAY", "DAY"),
  ("MAKEDATE", "DATEFROMPARTS"),
  ("MAKEDATETIME", "DATETIMEFROMPARTS"),
  ("LEN", "LEN"),
  ("LENGTH", "LEN"),
  ("SUBSTR", "SUBSTRING"),
  ("CONTAINS", "CHARINDEX"),
  ("LEFT", "LEFT"),
  ("RIGHT", "RIGHT"),
  ("TRIM", "TRIM"),
  ("LTRIM", "LTRIM"),
  ("RTRIM", "RTRIM"),
  ("UPPER", "UPPER"),
  ("LOWER", "LOWER"),
  ("REPLACE", "REPLACE"),
  ("SPLIT", "STRING_SPLIT"),
  ("FIND", "CHARINDEX"),
  ("STARTSWITH", "CHARINDEX"),
  ("ENDSWITH", "CHARINDEX"),
  ("SUM", "SUM"),
  ("AVG", "AVG"),
  ("COUNT", "COUNT"),
  ("MIN", "MIN"),
  ("MAX", "MAX"),
  ("STDEV", "STDEV"),
  ("STDEVP", "STDEVP"),
  ("VAR", "VAR"),
  ("VARP", "VARP"),
  ("MEDIAN", "PERCENTILE_CONT(0.5)"),
  ("IF", "IIF"),
  ("IFNULL", "ISNULL"),
  ("ISNULL", "ISNULL"),
  ("ZN", "ISNULL"),
  ("STR", "CAST"),
  ("INT", "CAST"),
  ("FLOAT", "CAST"),
  ("DATE", "CAST"),
  ("ABS", "ABS"),
  ("ROUND", "ROUND"),
  ("CEILING", "CEILING"),
  ("FLOOR", "FLOOR"),
  ("SQRT", "SQRT"),
  ("POWER", "POWER"),
  ("EXP", "EXP"),
  ("LN", "LOG"),
  ("LOG", "LOG10")]

/-- `get_fabric_function`: case-insensitive lookup. -/
def get_fabric_function (n : String) : Option String :=
  base_function_mappings.lookup (pyUpper n)

/-- `is_mapped_function`. -/
def is_mapped_function (n : String) : Bool :=
  (get_fabric_function n).isSome

/-- `special_handling_functions` (sql_mappings.py). -/
def special_handling_functions : List String :=
  ["MEDIAN", "PERCENTILE_CONT", "CONTAINS", "STARTSWITH", "ENDSWITH", "IF",
   "TODAY", "STR", "INT", "FLOAT", "DATE"]

/-- `requires_special_handling`. -/
def requires_special_handling (n : String) : Bool :=
  special_handling_functions.contains (pyUpper n)

/-- `function_categories` (AI_Base sql_parser.py), in the source's dict
insertion order; `_get_function_category` returns the first category whose
list contains the (upper-cased) name, `OTHER` otherwise. -/
def function_categories : List (FunctionCategory × List String) := [
  (.date, ["DATEADD", "DATEDIFF", "DATEPART", "NOW", "TODAY", "YEAR", "MONTH", "DAY",
           "MAKEDATE", "MAKEDATETIME", "DATENAME"]),
  (.string, ["LEN", "LENGTH", "SUBSTR", "CONTAINS", "LEFT", "RIGHT", "TRIM",
             "UPPER", "LOWER", "REPLACE", "SPLIT", "FIND", "STARTSWITH", "ENDSWITH"]),
  (.aggregate, ["SUM", "AVG", "COUNT", "MIN", "MAX", "STDEV", "STDEVP",
                "VAR", "VARP", "MEDIAN"]),
  (.logical, ["IF", "IFNULL", "ISNULL", "ZN"]),
  (.mathematical, ["ABS", "ROUND", "CEILING", "FLOOR", "SQRT", "POWER", "EXP", "LN", "LOG"])]

/-- `_get_function_category` (takes the upper-cased name). -/
def get_function_category (n : String) : FunctionCategory :=
  match function_categories.find? (fun p => p.2.contains n) with
  | some p => p.1
  | none => .other

/-- The `allowed_fabric` set of `_scan_for_functions`: Fabric built-ins a
scan does not report as unsupported. -/
def allowed_fabric : List String :=
  ["IIF", "GETDATE", "DATEFROMPARTS", "DATETIMEFROMPARTS", "LEN", "SUBSTRING",
   "CHARINDEX", "LOG", "LOG10", "ISNULL", "TRIM", "LTRIM", "RTRIM", "YEAR", "MONTH", "DAY",
   "SUM", "AVG", "COUNT", "MIN", "MAX", "STDEV", "STDEVP", "VAR", "VARP"]

/-- The `tableau_only` set of `_scan_for_functions`. -/
def tableau_only : List String :=
  ["WINDOW_AVG", "RUNNING_SUM", "RUNNING_AVG", "INDEX", "FIRST", "LAST",
   "LOOKUP", "PREVIOUS_VALUE", "FINDNTH", "REGEXP_EXTRACT", "PERCENTILE"]

/-- `SQLFragment` (AI_Base sql_parser.py): a piece of converted text with
its conversion status and the original text. -/
structure SQLFragment where
  content : String
  is_converted : Bool
  original : String
deriving DecidableEq

/-- `SQLFragment.__add__` on two fragments: concatenate the texts; the
combined fragment is converted only if both operands are. -/
def SQLFragment.add (a b : SQLFragment) : SQLFragment :=
  ⟨a.content ++ b.content, a.is_converted && b.is_converted, a.original ++ b.original⟩

/-- The sqlparse token shapes the converter dispatches on
(`Function`/`Identifier`/`Parenthesis`/other).  A `Function` node carries
its name (`get_name()`, the empty string standing for `None`) and its
remaining child tokens; a `Parenthesis` node's children include its `(` and
`)` punctuation tokens, as in sqlparse. -/
inductive STok where
  | func : String → List STok → STok
  | ident : String → STok
  | paren : List STok → STok
  | other : String → STok

mutual

/-- `str(token)`: the token's text, the concatenation of its leaves. -/
def renderTok : STok → List Char
  | .func n ch => n.data ++ renderToks ch
  | .ident t => t.data
  | .paren ch => renderToks ch
  | .other t => t.data

/-- `str` over a token list. -/
def renderToks : List STok → List Char
  | [] => []
  | t :: ts => renderTok t ++ renderToks ts

end

/-- First occurrence replacement: `re.sub(re.escape(pat), repl, s, count=1)`
with IGNORECASE when `ci`, or Python's case-sensitive
`s.replace(pat, repl, 1)` otherwise. -/
def replace_first (ci : Bool) (pat repl : List Char) : List Char → List Char
  | [] => []
  | c :: cs =>
    match (if ci then ciLit pat (c :: cs)
           else if (c :: cs).take pat.length = pat then some ((c :: cs).drop pat.length)
           else none) with
    | some rest => repl ++ rest
    | none => c :: replace_first ci pat repl cs

/-- The per-name body of `_scan_for_functions`: an unmapped function name
outside the `allowed_fabric` built-ins is recorded as unsupported and
flagged (at sentinel line 0); a name from the `tableau_only` list is
recorded and flagged again under its upper-cased name.  An empty name
(`get_name()` returned `None`) is skipped. -/
def scan_name (m : ConversionMetrics) (n : String) : ConversionMetrics :=
  if n = "" then m
  else
    let nU := pyUpper n
    let m1 := if !is_mapped_function n && !allowed_fabric.contains nU then
        (m.add_unsupported_function n).add_flagged_statement 0 (n ++ " function not supported")
      else m
    if tableau_only.contains nU then
      (m1.add_unsupported_function nU).add_flagged_statement 0 (nU ++ " function not supported")
    else m1

mutual

/-- `_scan_for_functions`: visit a token; on a `Function` node run
`scan_name` and recurse into the children (as `hasattr(token, 'tokens')`
recursion does); leaves carry no children. -/
def scan_token (m : ConversionMetrics) : STok → ConversionMetrics
  | .func n ch => scan_tokens (scan_name m n) ch
  | .paren ch => scan_tokens m ch
  | .ident _ => m
  | .other _ => m

/-- `_scan_for_functions` over a child list. -/
def scan_tokens (m : ConversionMetrics) : List STok → ConversionMetrics
  | [] => m
  | t :: ts => scan_tokens (scan_token m t) ts

end

/-- `_convert_special_function` (AI_Base sql_parser.py): `nU` is the
upper-cased name the caller passes. -/
def convert_special_function (m : ConversionMetrics) (original : String)
    (nU fabric : String) : SQLFragment × ConversionMetrics :=
  if nU = "MEDIAN" then
    (⟨original, false, original⟩,
     m.add_flagged_statement 0 "MEDIAN function requires manual review")
  else if nU = "TODAY" then
    (⟨fabric, true, original⟩, m)
  else if nU = "STR" || nU = "INT" || nU = "FLOAT" || nU = "DATE" then
    (⟨original, false, original⟩,
     m.add_flagged_statement 0 (nU ++ " conversion requires manual review"))
  else
    (⟨String.mk (replace_first false nU.data fabric.data original.data), true, original⟩, m)

/-- `_convert_function` (AI_Base sql_parser.py): mapped simple names get a
single case-insensitive rename inside the rendered text; mapped special
names go to `convert_special_function`; unmapped names are added to the
unsupported set and the original text is returned, marked not converted. -/
def convert_function (m : ConversionMetrics) (n : String) (ch : List STok) :
    SQLFragment × ConversionMetrics :=
  let original := String.mk (renderTok (.func n ch))
  if n = "" then (⟨original, true, original⟩, m)
  else
    let nU := pyUpper n
    if is_mapped_function n then
      let fabric := (get_fabric_function n).getD ""
      let m1 := m.add_function_conversion (get_function_category nU)
      if requires_special_handling n then
        convert_special_function m1 original nU fabric
      else
        (⟨String.mk (replace_first true n.data fabric.data (renderTok (.func n ch))), true,
          original⟩, m1)
    else
      (⟨original, false, original⟩, m.add_unsupported_function n)

mutual

/-- `_convert_token`: dispatch on the token kind; `Function` conversion,
`Parenthesis` recursion, everything else taken as already-converted text. -/
def convert_token (m : ConversionMetrics) : STok → SQLFragment × ConversionMetrics
  | .func n ch => convert_function m n ch
  | .ident t => (⟨t, true, t⟩, m)
  | .paren ch =>
    let r := convert_tokens m ch
    match r.1 with
    | [] =>
      (⟨String.mk (renderTok (.paren ch)), true, String.mk (renderTok (.paren ch))⟩, r.2)
    | f :: fs => (fs.foldl SQLFragment.add f, r.2)
  | .other t => (⟨t, true, t⟩, m)

/-- `_convert_token` over a child list, collecting the fragments. -/
def convert_tokens (m : ConversionMetrics) :
    List STok → List SQLFragment × ConversionMetrics
  | [] => ([], m)
  | t :: ts =>
    let r1 := convert_token m t
    let r2 := convert_tokens r1.2 ts
    (r1.1 :: r2.1, r2.2)

end

/-- `_convert_statement`: pre-scan for unsupported functions, convert every
token, then combine the fragments left-to-right with `SQLFragment.add`
(the `+` operator of the source); an empty statement gives the empty
converted fragment. -/
def convert_statement (m : ConversionMetrics) (toks : List STok) :
    SQLFragment × ConversionMetrics :=
  let m1 := scan_tokens m toks
  let r := convert_tokens m1 toks
  match r.1 with
  | [] => (⟨"", true, ""⟩, r.2)
  | f :: fs => (fs.foldl SQLFragment.add f, r.2)

/-- Reason flagged for STARTSWITH by `_preprocess_with_regex`. -/
def swReason : String := "STARTSWITH requires manual rewrite (use CHARINDEX(...) = 1 or LIKE)"

/-- Reason flagged for ENDSWITH by `_preprocess_with_regex`. -/
def ewReason : String := "ENDSWITH requires manual rewrite (use RIGHT(...) or LIKE %suffix)"

/-- Reason flagged for CONTAINS by `_preprocess_with_regex`. -/
def containsReason : String := "CONTAINS requires manual review (consider CHARINDEX(...) > 0)"

/-- Reason flagged for LOD markers by `_preprocess_with_regex`. -/
def lodAIReason : String := "LOD expression \x7bFIXED/INCLUDE/EXCLUDE\x7d not supported"

/-- An unconditional `re.sub` step of `_preprocess_with_regex`. -/
def pure_step (mm : Matcher) (st : List Char × ConversionMetrics) :
    List Char × ConversionMetrics :=
  (subst mm st.1, st.2)

/-- A `if re.search: re.sub + add_function_conversion` step. -/
def conv_step (mm : Matcher) (c : FunctionCategory)
    (st : List Char × ConversionMetrics) : List Char × ConversionMetrics :=
  if search mm st.1 then (subst mm st.1, st.2.add_function_conversion c) else st

/-- A `if pattern.search: add_flagged_statement(0, reason) +
add_function_conversion` step (STARTSWITH/ENDSWITH/CONTAINS). -/
def flag_conv_step (mm : Matcher) (reason : String) (c : FunctionCategory)
    (st : List Char × ConversionMetrics) : List Char × ConversionMetrics :=
  if search mm st.1 then
    (st.1, (st.2.add_flagged_statement 0 reason).add_function_conversion c)
  else st

/-- A `if pattern.search: add_flagged_statement(0, reason)` step (LOD). -/
def flag_step (mm : Matcher) (reason : String)
    (st : List Char × ConversionMetrics) : List Char × ConversionMetrics :=
  if search mm st.1 then (st.1, st.2.add_flagged_statement 0 reason) else st

/-- `_replace_split` (AI_Base sql_parser.py): rewrite index-1 SPLIT calls,
flag any other index at sentinel line 0 and leave the call unchanged. -/
def mSplitRewriteAI : FMatcher := fun prev s =>
  match mSplitCapture prev s with
  | none => none
  | some (g1, d, idx, rest) =>
    let sv := pyStrip g1
    if pyStrip idx = ['1'] then
      some ("SUBSTRING(".data ++ sv ++ ", 1, CHARINDEX(".data ++ quoted d ++
        ", ".data ++ sv ++ ") - 1)".data, rest, [])
    else
      some (s.take (s.length - rest.length), rest, [(0, splitReason)])

/-- The SPLIT step of `_preprocess_with_regex`: run the substitution and
record the flags its callback raised, in match order. -/
def split_step (st : List Char × ConversionMetrics) : List Char × ConversionMetrics :=
  let r := substF mSplitRewriteAI st.1
  (r.1, r.2.foldl (fun acc p => acc.add_flagged_statement p.1 p.2) st.2)

/-- `_preprocess_with_regex` (AI_Base sql_parser.py), in the source's step
order. -/
def preprocess_with_regex (m : ConversionMetrics) (query : String) :
    String × ConversionMetrics :=
  let st1 := pure_step (mFunOpen "IF".data "IIF(".data) (query.data, m)
  let st2 := pure_step (mFunOpen "IFNULL".data "ISNULL(".data) st1
  let st3 := pure_step (mWordRepl "TRUE".data "1".data) st2
  let st4 := pure_step (mWordRepl "FALSE".data "0".data) st3
  let st5 := pure_step mComment st4
  let st6 := conv_step (mFunOpen "NOW".data "GETDATE(".data) .date st5
  let st7 := conv_step (mFunOpen "SUBSTR".data "SUBSTRING(".data) .string st6
  let st8 := conv_step (mFunOpen "LENGTH".data "LEN(".data) .string st7
  let st9 := conv_step (mFunOpen "MAKEDATE".data "DATEFROMPARTS(".data) .date st8
  let st10 := conv_step (mFunOpen "MAKEDATETIME".data "DATETIMEFROMPARTS(".data) .date st9
  let st11 := conv_step (mFunOpen "ZN".data "ISNULL(".data) .logical st10
  let st12 := conv_step (mFunOpen "LN".data "LOG(".data) .mathematical st11
  let st13 := pure_step mBracketIdent st12
  let st14 := pure_step (mCastArg "INT".data
    (fun c => "CAST(".data ++ c ++ " AS INT)".data)) st13
  let st15 := pure_step (mCastArg "STR".data
    (fun c => "CAST(".data ++ c ++ " AS VARCHAR(20))".data)) st14
  let st16 := split_step st15
  let st17 := flag_conv_step (mFunOpen "STARTSWITH".data []) swReason .string st16
  let st18 := flag_conv_step (mFunOpen "ENDSWITH".data []) ewReason .string st17
  let st19 := flag_conv_step (mFunOpen "CONTAINS".data []) containsReason .string st18
  let st20 := flag_step mLod lodAIReason st19
  (String.mk st20.1, st20.2)

/-- Strict lexicographic order on strings by code point (Python `sorted`). -/
def strLt (a b : String) : Bool :=
  go a.data b.data
where
  go : List Char → List Char → Bool
    | [], [] => false
    | [], _ :: _ => true
    | _ :: _, [] => false
    | c :: cs, d :: ds => if c = d then go cs ds else decide (c < d)

/-- Insert into an ascending list (insertion sort step). -/
def insertSorted (x : String) : List String → List String
  | [] => [x]
  | y :: ys => if strLt x y then x :: y :: ys else y :: insertSorted x ys

/-- Python `sorted` over the unsupported-function set. -/
def sortStrings (l : List String) : List String := l.foldr insertSorted []

/-- Python's `needle in hay` substring test. -/
def hasInfix (needle : List Char) : List Char → Bool
  | [] => needle.isEmpty
  | c :: cs =>
    if (c :: cs).take needle.length = needle then true else hasInfix needle cs

/-- The first-seen deduplication of `_attach_flag_line_numbers` (a `seen`
set over exact (line, reason) pairs, preserving order).  Fuel is the
length: the recursion filters, which never grows the list. -/
def pyDedupGo : Nat → List Flag → List Flag
  | 0, l => l
  | _ + 1, [] => []
  | fuel + 1, p :: ps => p :: pyDedupGo fuel (ps.filter (fun q => !(q == p)))

/-- First-seen deduplication by exact (line, reason) pair. -/
def pyDedup (l : List Flag) : List Flag := pyDedupGo l.length l

/-- The reason text `f"{func} function not supported"`. -/
def unsupported_reason (f : String) : String := f ++ " function not supported"

/-- `special_to_reason` (in `_attach_flag_line_numbers`), in dict order. -/
def special_to_reason : List (String × String) := [
  ("MEDIAN", "MEDIAN function requires manual review"),
  ("STR", "STR conversion requires manual review"),
  ("INT", "INT conversion requires manual review"),
  ("FLOAT", "FLOAT conversion requires manual review"),
  ("DATE", "DATE conversion requires manual review")]

/-- The attribution pattern `\b{func}\s*\(` (case-insensitive; the
function names scanned are word-like, so `re.escape` leaves them literal). -/
def mFuncPat (f : String) : Matcher := mFunOpen f.data []

/-- The unsupported-function part of the derived flags: for every distinct
unsupported name in sorted order, a flag for every line of the original
text its call pattern matches. -/
def derived_unsupported (q : String) (m : ConversionMetrics) : List Flag :=
  (sortStrings m.unsupported_functions).flatMap
    (fun f => flagLinesBy (fun ln => search (mFuncPat f) ln) (unsupported_reason f) q.data)

/-- The special-handling part of the derived flags: for each fixed
(function, reason) pair, when the reason is a substring of some recorded
flag's reason *or* the function's pattern occurs anywhere in the original
text, a flag for every line the pattern matches. -/
def derived_special (q : String) (m : ConversionMetrics) : List Flag :=
  special_to_reason.flatMap
    (fun fr =>
      if m.flagged_lines.any (fun p => hasInfix fr.2.data p.2.data) ||
          search (mFuncPat fr.1) q.data then
        flagLinesBy (fun ln => search (mFuncPat fr.1) ln) fr.2 q.data
      else [])

/-- `_attach_flag_line_numbers` (AI_Base sql_parser.py): keep the flags
with a positive line number, append the derived flags, and deduplicate by
exact (line, reason) pair, first seen first.  A falsy (empty) original
query returns the metrics unchanged. -/
def attach_flag_line_numbers (q : String) (m : ConversionMetrics) :
    ConversionMetrics :=
  if q = "" then m
  else
    let kept := m.flagged_lines.filter (fun p => 0 < p.1)
    { m with flagged_lines :=
        pyDedup (kept ++ derived_unsupported q m ++ derived_special q m) }

/-- Step 3 of `convert_query`: convert each parsed statement, collecting
`str(fragment)` for each. -/
def convert_statements (m : ConversionMetrics) :
    List (List STok) → List String × ConversionMetrics
  | [] => ([], m)
  | st :: sts =>
    let r1 := convert_statement m st
    let r2 := convert_statements r1.2 sts
    (r1.1.content :: r2.1, r2.2)

/-- The `try` block of `convert_query` (AI_Base sql_parser.py) for a
non-empty string input.  `parseOracle` models `sqlparse.parse` (each parsed
statement as its token list) and `fmtOracle` models the `sqlparse.format`
call of `_postprocess_query`; an `Except.error` from either models the
library raising, which propagates to the handler together with the metrics
at that point. -/
def convert_body (parseOracle : String → Except String (List (List STok)))
    (fmtOracle : String → Except String String) (q : String) :
    Except (String × ConversionMetrics) (String × ConversionMetrics × List Flag) :=
  let m0 := { ConversionMetrics.init with total_statements := 1 }
  let pre := preprocess_with_regex m0 q
  match parseOracle pre.1 with
  | .error e => .error (e, pre.2)
  | .ok stmts =>
    if stmts.isEmpty then
      .ok (q, (pre.2).add_flagged_statement 0 "Unable to parse SQL",
        [(0, "Unable to parse SQL")])
    else
      let conv := convert_statements pre.2 stmts
      let joined := String.intercalate "\n" conv.1
      match fmtOracle joined with
      | .error e => .error (e, conv.2)
      | .ok formatted =>
        let m3 := attach_flag_line_numbers q conv.2
        let m4 := if m3.flagged_lines.isEmpty && m3.unsupported_functions.isEmpty then
            m3.add_successful_conversion
          else m3
        .ok (formatted, m4, m4.flagged_lines)

/-- `SQLConverter.convert_query` (AI_Base sql_parser.py): the guard for
empty/non-string input returns the previous call's metrics; otherwise the
`try` body runs and the `except` handler turns a raised exception into a
flag at line 0 with the original text returned unchanged. -/
def convert_query (prev : ConversionMetrics)
    (parseOracle : String → Except String (List (List STok)))
    (fmtOracle : String → Except String String) (input : PyInput) :
    String × ConversionMetrics × List Flag :=
  match input with
  | .notAString => ("", prev, [])
  | .ofString q =>
    if q = "" then ("", prev, [])
    else
      match convert_body parseOracle fmtOracle q with
      | .ok r => r
      | .error (e, m) =>
        let msg := "Conversion error: " ++ e
        (q, m.add_flagged_statement 0 msg, [(0, msg)])

end AIBase

/-! Helper lemmas about the metric operations. -/

theorem add_flagged_total (m : ConversionMetrics) (ln : Nat) (r : String) :
    (m.add_flagged_statement ln r).total_statements = m.total_statements := rfl

theorem add_flagged_succ (m : ConversionMetrics) (ln : Nat) (r : String) :
    (m.add_flagged_statement ln r).successful_conversions = m.successful_conversions := rfl

theorem add_flagged_unsupported (m : ConversionMetrics) (ln : Nat) (r : String) :
    (m.add_flagged_statement ln r).unsupported_functions = m.unsupported_functions := rfl

theorem add_conv_total (m : ConversionMetrics) (c : FunctionCategory) :
    (m.add_function_conversion c).total_statements = m.total_statements := rfl

theorem add_conv_succ (m : ConversionMetrics) (c : FunctionCategory) :
    (m.add_function_conversion c).successful_conversions = m.successful_conversions := rfl

theorem add_unsupported_total (m : ConversionMetrics) (f : String) :
    (m.add_unsupported_function f).total_statements = m.total_statements := by
  unfold ConversionMetrics.add_unsupported_function
  split <;> rfl

theorem add_unsupported_succ (m : ConversionMetrics) (f : String) :
    (m.add_unsupported_function f).successful_conversions = m.successful_conversions := by
  unfold ConversionMetrics.add_unsupported_function
  split <;> rfl

theorem add_unsupported_flagged (m : ConversionMetrics) (f : String) :
    (m.add_unsupported_function f).flagged_statements = m.flagged_statements := by
  unfold ConversionMetrics.add_unsupported_function
  split <;> rfl

theorem mem_add_unsupported (m : ConversionMetrics) (f : String) :
    f ∈ (m.add_unsupported_function f).unsupported_functions := by
  unfold ConversionMetrics.add_unsupported_function
  split
  · next h => exact List.mem_of_elem_eq_true h
  · simp

/-- Folding a flag list into the ledger touches neither `successful` nor
`unsupported` nor `total`, and appends exactly the flags. -/
theorem foldl_add_flagged (fl : List Flag) (m : ConversionMetrics) :
    (fl.foldl (fun acc p => acc.add_flagged_statement p.1 p.2) m).successful_conversions
        = m.successful_conversions ∧
    (fl.foldl (fun acc p => acc.add_flagged_statement p.1 p.2) m).unsupported_functions
        = m.unsupported_functions ∧
    (fl.foldl (fun acc p => acc.add_flagged_statement p.1 p.2) m).total_statements
        = m.total_statements ∧
    (fl.foldl (fun acc p => acc.add_flagged_statement p.1 p.2) m).flagged_lines
        = m.flagged_lines ++ fl := by
  induction fl generalizing m with
  | nil => simp
  | cons p ps ih =>
    simpa [ConversionMetrics.add_flagged_statement] using ih (m.add_flagged_statement p.1 p.2)

/-! Claim C6. -/

/-- C6: combining two fragments with the concatenation operator yields a
fragment whose text is the concatenation of the texts and whose converted
status is the logical AND of the operands' statuses; a single unconverted
operand poisons the combination regardless of order. -/
theorem c6_fragment_concat (a b : AIBase.SQLFragment) :
    (a.add b).content = a.content ++ b.content ∧
    (a.add b).is_converted = (a.is_converted && b.is_converted) ∧
    ((a.add b).is_converted = false ↔ a.is_converted = false ∨ b.is_converted = false) ∧
    (a.add b).is_converted = (b.add a).is_converted := by
  refine ⟨rfl, rfl, ?_, ?_⟩ <;>
    cases ha : a.is_converted <;> cases hb : b.is_converted <;>
      simp [AIBase.SQLFragment.add, ha, hb]

/-! Claim C9. -/

/-- C9: on an empty-string or non-string input both variants of
`convert_query` return `("", m, [])` before resetting the ledger, where `m`
is the metrics object left over from the previous call — so per-call
metrics freshness does not hold on this early-return path (the returned
metrics are whatever the previous call left, untouched). -/
theorem c9_early_return (prev : ConversionMetrics)
    (fmtO : String → Except String String)
    (pO : String → Except String (List (List AIBase.STok)))
    (fO : String → Except String String) :
    Main.convert_query prev fmtO (.ofString "") = ("", prev, []) ∧
    Main.convert_query prev fmtO .notAString = ("", prev, []) ∧
    AIBase.convert_query prev pO fO (.ofString "") = ("", prev, []) ∧
    AIBase.convert_query prev pO fO .notAString = ("", prev, []) := by
  refine ⟨?_, rfl, ?_, rfl⟩ <;> simp [Main.convert_query, AIBase.convert_query]

/-! Claim C1. -/

/-- C1 counterexample: `CHARINDEX` is absent from the Mapping Table, and
converting a statement containing `CHARINDEX(x)` leaves the text verbatim,
adds the name to `unsupportedFunctions` and marks the fragment not
converted — but records *no* flagged statement, because the pre-scan skips
names in the `allowed_fabric` built-in set.  This refutes the claim's
"records a flagged statement" conjunct. -/
theorem c1_unknown_function_counterexample :
    AIBase.is_mapped_function "CHARINDEX" = false ∧
    (AIBase.convert_statement .init
        [.other "SELECT ", .func "CHARINDEX" [.other "(x)"], .other " FROM t"]).1.content
      = "SELECT CHARINDEX(x) FROM t" ∧
    (AIBase.convert_statement .init
        [.other "SELECT ", .func "CHARINDEX" [.other "(x)"], .other " FROM t"]).1.is_converted
      = false ∧
    (AIBase.convert_statement .init
        [.other "SELECT ", .func "CHARINDEX" [.other "(x)"], .other " FROM t"]).2.unsupported_functions
      = ["CHARINDEX"] ∧
    (AIBase.convert_statement .init
        [.other "SELECT ", .func "CHARINDEX" [.other "(x)"], .other " FROM t"]).2.flagged_statements
      = 0 := by decide

/-- C1 (amended): for every function name `f` absent from the Mapping
Table, the structural fallback converter leaves the function token's text
verbatim, adds `f` to the unsupported set and marks the fragment not
converted; a flagged statement is recorded by the pre-scan exactly when
`f` is moreover outside the converter's `allowed_fabric` built-in set
(with a second flag when it is in the `tableau_only` list). -/
theorem c1_unknown_function_amended (f : String) (ch : List AIBase.STok)
    (m : ConversionMetrics)
    (hm : AIBase.is_mapped_function f = false) (hf : f ≠ "") :
    (AIBase.convert_function m f ch).1.content
        = String.mk (AIBase.renderTok (.func f ch)) ∧
    (AIBase.convert_function m f ch).1.is_converted = false ∧
    (AIBase.convert_function m f ch).2 = m.add_unsupported_function f ∧
    f ∈ (AIBase.convert_function m f ch).2.unsupported_functions ∧
    (AIBase.scan_name m f).flagged_statements =
      (if pyUpper f ∈ AIBase.allowed_fabric then m.flagged_statements
       else m.flagged_statements + 1) +
      (if pyUpper f ∈ AIBase.tableau_only then 1 else 0) := by
  refine ⟨?_, ?_, ?_, ?_, ?_⟩
  · simp [AIBase.convert_function, hm, hf]
  · simp [AIBase.convert_function, hm, hf]
  · simp [AIBase.convert_function, hm, hf]
  · simp only [AIBase.convert_function, hm, if_neg hf, Bool.false_eq_true, if_false]
    exact mem_add_unsupported m f
  · unfold AIBase.scan_name
    rw [if_neg hf]
    by_cases ha : pyUpper f ∈ AIBase.allowed_fabric <;>
      by_cases ht : pyUpper f ∈ AIBase.tableau_only <;>
        simp [hm, ha, ht, ConversionMetrics.add_flagged_statement, add_unsupported_flagged]

/-- C1 witness: the amended theorem applied to the concrete unknown
function `CUSTOM_FUNC`. -/
theorem c1_unknown_function_amended_witness :
    AIBase.is_mapped_function "CUSTOM_FUNC" = false ∧ "CUSTOM_FUNC" ≠ "" ∧
    ((AIBase.convert_function .init "CUSTOM_FUNC" [.other "(x)"]).1.is_converted = false ∧
     "CUSTOM_FUNC" ∈ (AIBase.convert_function .init "CUSTOM_FUNC"
        [.other "(x)"]).2.unsupported_functions) :=
  ⟨by decide, by decide,
   ⟨(c1_unknown_function_amended "CUSTOM_FUNC" [.other "(x)"] .init (by decide)
       (by decide)).2.1,
    (c1_unknown_function_amended "CUSTOM_FUNC" [.other "(x)"] .init (by decide)
       (by decide)).2.2.2.1⟩⟩

/-! Claim C5. -/

/-- C5 counterexample: calling `convert_query` on the empty string returns
the previous (here: freshly initialised) metrics unchanged; those metrics
have empty `flaggedLines` and empty `unsupportedFunctions` but
`successfulConversions = 0`, not 1 — so the derived-fact invariant does not
hold for every call. -/
theorem c5_success_counterexample :
    Main.convert_query .init (fun s => .ok s) (.ofString "")
      = ("", ConversionMetrics.init, []) ∧
    ConversionMetrics.init.flagged_lines = [] ∧
    ConversionMetrics.init.unsupported_functions = [] ∧
    ConversionMetrics.init.successful_conversions = 0 := by
  exact ⟨rfl, rfl, rfl, rfl⟩

/-- C5 (amended): for every call of the main `convert_query` with a
nonempty string input, the returned metrics satisfy
`successfulConversions = 1` exactly when both `flaggedLines` and
`unsupportedFunctions` are empty, and `0` otherwise — the value is derived
from the flag state at completion; on the empty/non-string early return the
previous call's metrics are handed back unchanged and the invariant can
fail there. -/
theorem c5_success_amended (prev : ConversionMetrics)
    (fmtO : String → Except String String) (q : String) (hq : q ≠ "") :
    (Main.convert_query prev fmtO (.ofString q)).2.1.successful_conversions =
      (if (Main.convert_query prev fmtO (.ofString q)).2.1.flagged_lines = [] ∧
          (Main.convert_query prev fmtO (.ofString q)).2.1.unsupported_functions = [] then
        1 else 0) := by
  simp only [Main.convert_query]
  rw [if_neg hq]
  obtain ⟨h1, h2, h3, h4⟩ :=
    foldl_add_flagged (Main.apply_regex_remapping q).2
      { ConversionMetrics.init with total_statements := 1 }
  set mf := (Main.apply_regex_remapping q).2.foldl
    (fun acc p => acc.add_flagged_statement p.1 p.2)
    { ConversionMetrics.init with total_statements := 1 } with hmf
  simp only []
  by_cases hc : mf.flagged_lines.isEmpty && mf.unsupported_functions.isEmpty
  · rw [if_pos hc]
    have he : mf.flagged_lines = [] ∧ mf.unsupported_functions = [] := by
      constructor <;> [exact List.isEmpty_iff.mp (Bool.and_elim_left hc);
        exact List.isEmpty_iff.mp (Bool.and_elim_right hc)]
    simp [ConversionMetrics.add_successful_conversion, he.1, he.2, h1,
      ConversionMetrics.init]
  · rw [if_neg hc]
    have hne : ¬(mf.flagged_lines = [] ∧ mf.unsupported_functions = []) := by
      intro h
      exact hc (by simp [h.1, h.2])
    simp [hne, h1, ConversionMetrics.init]

/-- C5 witness: the amended invariant at a concrete flag-free input. -/
theorem c5_success_amended_witness :
    "SELECT 1" ≠ "" ∧
    (Main.convert_query .init (fun s => .ok s) (.ofString "SELECT 1")).2.1.successful_conversions =
      (if (Main.convert_query .init (fun s => .ok s)
            (.ofString "SELECT 1")).2.1.flagged_lines = [] ∧
          (Main.convert_query .init (fun s => .ok s)
            (.ofString "SELECT 1")).2.1.unsupported_functions = [] then
        1 else 0) :=
  ⟨by decide, c5_success_amended .init (fun s => .ok s) "SELECT 1" (by decide)⟩

/-! Claim C8. -/

/-- C8 (evaluation at the failing input): the Mapping Table — the code's
own single source of truth — maps `LN` to `LOG`, but the Pattern Rewrite
Engine applies the `LN → LOG(` rule and then the `LOG → LOG10(` rule to its
own output, so `SELECT LN(x) FROM t` comes out as `SELECT LOG10(x) FROM t`
(flag-free): the two overlapping rewrites do interfere, contradicting the
source's comment `LN() → LOG()` and its mapping table. -/
theorem c8_ln_log_bug_eval :
    Main.apply_regex_remapping "SELECT LN(x) FROM t"
      = ("SELECT LOG10(x) FROM t", []) ∧
    AIBase.get_fabric_function "LN" = some "LOG" ∧
    Main.apply_regex_remapping "SELECT LOG(y) FROM t"
      = ("SELECT LOG10(y) FROM t", []) := by
  exact ⟨by decide, by decide, by decide⟩

/-! Preservation lemmas: nothing before the final success check of
`convert_query` touches `total_statements` or `successful_conversions`. -/

theorem pure_step_snd (mm : Matcher) (st : List Char × ConversionMetrics) :
    (AIBase.pure_step mm st).2 = st.2 := rfl

theorem conv_step_total (mm : Matcher) (c : FunctionCategory)
    (st : List Char × ConversionMetrics) :
    (AIBase.conv_step mm c st).2.total_statements = st.2.total_statements := by
  unfold AIBase.conv_step
  split <;> rfl

theorem conv_step_succ (mm : Matcher) (c : FunctionCategory)
    (st : List Char × ConversionMetrics) :
    (AIBase.conv_step mm c st).2.successful_conversions = st.2.successful_conversions := by
  unfold AIBase.conv_step
  split <;> rfl

theorem flag_conv_step_total (mm : Matcher) (r : String) (c : FunctionCategory)
    (st : List Char × ConversionMetrics) :
    (AIBase.flag_conv_step mm r c st).2.total_statements = st.2.total_statements := by
  unfold AIBase.flag_conv_step
  split <;> rfl

theorem flag_conv_step_succ (mm : Matcher) (r : String) (c : FunctionCategory)
    (st : List Char × ConversionMetrics) :
    (AIBase.flag_conv_step mm r c st).2.successful_conversions
      = st.2.successful_conversions := by
  unfold AIBase.flag_conv_step
  split <;> rfl

theorem flag_step_total (mm : Matcher) (r : String)
    (st : List Char × ConversionMetrics) :
    (AIBase.flag_step mm r st).2.total_statements = st.2.total_statements := by
  unfold AIBase.flag_step
  split <;> rfl

theorem flag_step_succ (mm : Matcher) (r : String)
    (st : List Char × ConversionMetrics) :
    (AIBase.flag_step mm r st).2.successful_conversions = st.2.successful_conversions := by
  unfold AIBase.flag_step
  split <;> rfl

theorem split_step_total (st : List Char × ConversionMetrics) :
    (AIBase.split_step st).2.total_statements = st.2.total_statements :=
  (foldl_add_flagged (substF AIBase.mSplitRewriteAI st.1).2 st.2).2.2.1

theorem split_step_succ (st : List Char × ConversionMetrics) :
    (AIBase.split_step st).2.successful_conversions = st.2.successful_conversions :=
  (foldl_add_flagged (substF AIBase.mSplitRewriteAI st.1).2 st.2).1

theorem preprocess_total (m : ConversionMetrics) (q : String) :
    (AIBase.preprocess_with_regex m q).2.total_statements = m.total_statements := by
  simp only [AIBase.preprocess_with_regex, flag_step_total, flag_conv_step_total,
    split_step_total, pure_step_snd, conv_step_total]

theorem preprocess_succ (m : ConversionMetrics) (q : String) :
    (AIBase.preprocess_with_regex m q).2.successful_conversions
      = m.successful_conversions := by
  simp only [AIBase.preprocess_with_regex, flag_step_succ, flag_conv_step_succ,
    split_step_succ, pure_step_snd, conv_step_succ]

theorem scan_name_total (m : ConversionMetrics) (n : String) :
    (AIBase.scan_name m n).total_statements = m.total_statements := by
  unfold AIBase.scan_name
  split
  · rfl
  · dsimp only
    split <;> split <;> simp only [add_flagged_total, add_unsupported_total]

theorem scan_name_succ (m : ConversionMetrics) (n : String) :
    (AIBase.scan_name m n).successful_conversions = m.successful_conversions := by
  unfold AIBase.scan_name
  split
  · rfl
  · dsimp only
    split <;> split <;> simp only [add_flagged_succ, add_unsupported_succ]

mutual

theorem scan_token_preserves (m : ConversionMetrics) (t : AIBase.STok) :
    (AIBase.scan_token m t).total_statements = m.total_statements ∧
    (AIBase.scan_token m t).successful_conversions = m.successful_conversions := by
  cases t with
  | func n ch =>
    have h1 := scan_tokens_preserves (AIBase.scan_name m n) ch
    exact ⟨h1.1.trans (scan_name_total m n), h1.2.trans (scan_name_succ m n)⟩
  | ident t => exact ⟨rfl, rfl⟩
  | paren ch => exact scan_tokens_preserves m ch
  | other t => exact ⟨rfl, rfl⟩

theorem scan_tokens_preserves (m : ConversionMetrics) (ts : List AIBase.STok) :
    (AIBase.scan_tokens m ts).total_statements = m.total_statements ∧
    (AIBase.scan_tokens m ts).successful_conversions = m.successful_conversions := by
  cases ts with
  | nil => exact ⟨rfl, rfl⟩
  | cons t ts =>
    have h1 := scan_token_preserves m t
    have h2 := scan_tokens_preserves (AIBase.scan_token m t) ts
    exact ⟨h2.1.trans h1.1, h2.2.trans h1.2⟩

end

theorem convert_special_preserves (m : ConversionMetrics) (o nU fb : String) :
    (AIBase.convert_special_function m o nU fb).2.total_statements = m.total_statements ∧
    (AIBase.convert_special_function m o nU fb).2.successful_conversions
      = m.successful_conversions := by
  unfold AIBase.convert_special_function
  split
  · exact ⟨rfl, rfl⟩
  · split
    · exact ⟨rfl, rfl⟩
    · split <;> exact ⟨rfl, rfl⟩

theorem convert_function_preserves (m : ConversionMetrics) (n : String)
    (ch : List AIBase.STok) :
    (AIBase.convert_function m n ch).2.total_statements = m.total_statements ∧
    (AIBase.convert_function m n ch).2.successful_conversions
      = m.successful_conversions := by
  unfold AIBase.convert_function
  split
  · exact ⟨rfl, rfl⟩
  · split
    · split
      · exact convert_special_preserves _ _ _ _
      · exact ⟨rfl, rfl⟩
    · exact ⟨add_unsupported_total m n, add_unsupported_succ m n⟩

mutual

theorem convert_token_preserves (m : ConversionMetrics) (t : AIBase.STok) :
    (AIBase.convert_token m t).2.total_statements = m.total_statements ∧
    (AIBase.convert_token m t).2.successful_conversions = m.successful_conversions := by
  cases t with
  | func n ch => exact convert_function_preserves m n ch
  | ident t => exact ⟨rfl, rfl⟩
  | paren ch =>
    have h := convert_tokens_preserves m ch
    simp only [AIBase.convert_token]
    split <;> exact h
  | other t => exact ⟨rfl, rfl⟩

theorem convert_tokens_preserves (m : ConversionMetrics) (ts : List AIBase.STok) :
    (AIBase.convert_tokens m ts).2.total_statements = m.total_statements ∧
    (AIBase.convert_tokens m ts).2.successful_conversions = m.successful_conversions := by
  cases ts with
  | nil => exact ⟨rfl, rfl⟩
  | cons t ts =>
    have h1 := convert_token_preserves m t
    have h2 := convert_tokens_preserves (AIBase.convert_token m t).2 ts
    exact ⟨h2.1.trans h1.1, h2.2.trans h1.2⟩

end

theorem convert_statement_preserves (m : ConversionMetrics) (ts : List AIBase.STok) :
    (AIBase.convert_statement m ts).2.total_statements = m.total_statements ∧
    (AIBase.convert_statement m ts).2.successful_conversions
      = m.successful_conversions := by
  unfold AIBase.convert_statement
  dsimp only
  have h1 := scan_tokens_preserves m ts
  have h2 := convert_tokens_preserves (AIBase.scan_tokens m ts) ts
  split <;> exact ⟨h2.1.trans h1.1, h2.2.trans h1.2⟩

theorem convert_statements_preserves (m : ConversionMetrics)
    (sts : List (List AIBase.STok)) :
    (AIBase.convert_statements m sts).2.total_statements = m.total_statements ∧
    (AIBase.convert_statements m sts).2.successful_conversions
      = m.successful_conversions := by
  induction sts generalizing m with
  | nil => exact ⟨rfl, rfl⟩
  | cons st sts ih =>
    have h1 := convert_statement_preserves m st
    have h2 := ih (AIBase.convert_statement m st).2
    exact ⟨h2.1.trans h1.1, h2.2.trans h1.2⟩

/-- Any metrics escaping through the `except` handler carries
`totalStatements = 1` (set at the start of the body, preserved everywhere)
and `successfulConversions = 0` (only ever incremented at the very end of
the body, after both possible raise sites). -/
theorem convert_body_error_metrics
    (pO : String → Except String (List (List AIBase.STok)))
    (fO : String → Except String String) (q e : String) (mErr : ConversionMetrics)
    (h : AIBase.convert_body pO fO q = .error (e, mErr)) :
    mErr.total_statements = 1 ∧ mErr.successful_conversions = 0 := by
  unfold AIBase.convert_body at h
  dsimp only at h
  split at h
  · injection h with h2
    rw [Prod.mk.injEq] at h2
    rw [← h2.2]
    exact ⟨(preprocess_total _ q).trans rfl, (preprocess_succ _ q).trans rfl⟩
  · split at h
    · exact absurd h (by simp)
    · split at h
      · injection h with h2
        rw [Prod.mk.injEq] at h2
        rw [← h2.2]
        refine ⟨(convert_statements_preserves _ _).1.trans ?_,
          (convert_statements_preserves _ _).2.trans ?_⟩
        · exact (preprocess_total _ q).trans rfl
        · exact (preprocess_succ _ q).trans rfl
      · exact absurd h (by simp)

/-! Claim C2. -/

/-- C2: whenever the guarded conversion body fails (the parse step or the
formatting step raises — e.g. on structurally unparseable input), the
AI-variant `convert_query` returns the original input text unchanged
together with the metrics at the failure point extended by a single flag at
line 0, and that returned flag list is exactly `[(0, "Conversion error:
...")]`; the final metrics satisfy `totalStatements = 1` and
`successfulConversions = 0`.  The model's `convert_query` is a total
function — every execution returns the (text, metrics, flags) three-tuple,
the `except` handler being the only consumer of a raised error. -/
theorem c2_structural_failure (prev : ConversionMetrics)
    (pO : String → Except String (List (List AIBase.STok)))
    (fO : String → Except String String) (q e : String) (mErr : ConversionMetrics)
    (hq : q ≠ "") (hbody : AIBase.convert_body pO fO q = .error (e, mErr)) :
    AIBase.convert_query prev pO fO (.ofString q) =
      (q, mErr.add_flagged_statement 0 ("Conversion error: " ++ e),
       [(0, "Conversion error: " ++ e)]) ∧
    (mErr.add_flagged_statement 0 ("Conversion error: " ++ e)).total_statements = 1 ∧
    (mErr.add_flagged_statement 0 ("Conversion error: " ++ e)).successful_conversions
      = 0 := by
  have hm := convert_body_error_metrics pO fO q e mErr hbody
  refine ⟨?_, (add_flagged_total mErr 0 _).trans hm.1,
    (add_flagged_succ mErr 0 _).trans hm.2⟩
  simp only [AIBase.convert_query]
  rw [if_neg hq, hbody]

/-- C2 witness: a parse oracle that raises (as `sqlparse.parse` would on a
structurally broken input) on the unbalanced-parenthesis query. -/
theorem c2_structural_failure_witness :
    "SELECT UPPER(name FROM t" ≠ "" ∧
    AIBase.convert_body (fun _ => .error "unbalanced parenthesis") (fun s => .ok s)
        "SELECT UPPER(name FROM t"
      = .error ("unbalanced parenthesis",
          { ConversionMetrics.init with total_statements := 1 }) ∧
    AIBase.convert_query .init (fun _ => .error "unbalanced parenthesis")
        (fun s => .ok s) (.ofString "SELECT UPPER(name FROM t")
      = ("SELECT UPPER(name FROM t",
         ConversionMetrics.add_flagged_statement
           { ConversionMetrics.init with total_statements := 1 } 0
           ("Conversion error: " ++ "unbalanced parenthesis"),
         [(0, "Conversion error: " ++ "unbalanced parenthesis")]) :=
  ⟨by decide, by rfl,
   (c2_structural_failure .init (fun _ => .error "unbalanced parenthesis")
     (fun s => .ok s) "SELECT UPPER(name FROM t" "unbalanced parenthesis"
     { ConversionMetrics.init with total_statements := 1 } (by decide) (by rfl)).1⟩

/-! Deduplication, line-scan and sort lemmas for the attribution pass. -/

theorem pyDedupGo_sublist (fuel : Nat) (l : List Flag) (h : l.length ≤ fuel) :
    List.Sublist (AIBase.pyDedupGo fuel l) l := by
  induction fuel generalizing l with
  | zero => exact List.Sublist.refl l
  | succ n ih =>
    cases l with
    | nil => exact List.Sublist.refl []
    | cons p ps =>
      simp only [AIBase.pyDedupGo]
      refine List.Sublist.cons₂ p ?_
      exact (ih _ ((List.length_filter_le _ ps).trans
        (Nat.le_of_succ_le_succ h))).trans (List.filter_sublist ps)

theorem pyDedup_sublist (l : List Flag) : List.Sublist (AIBase.pyDedup l) l :=
  pyDedupGo_sublist _ _ le_rfl

theorem mem_pyDedupGo (fuel : Nat) (l : List Flag) (h : l.length ≤ fuel) (x : Flag) :
    x ∈ AIBase.pyDedupGo fuel l ↔ x ∈ l := by
  constructor
  · exact fun hx => (pyDedupGo_sublist fuel l h).subset hx
  · induction fuel generalizing l with
    | zero => exact fun hx => hx
    | succ n ih =>
      intro hx
      cases l with
      | nil => exact absurd hx (by simp)
      | cons p ps =>
        simp only [AIBase.pyDedupGo]
        rcases List.mem_cons.mp hx with rfl | hx2
        · exact List.mem_cons_self _ _
        · by_cases hxp : x = p
          · exact hxp ▸ List.mem_cons_self _ _
          · refine List.mem_cons_of_mem p (ih _ ((List.length_filter_le _ ps).trans
              (Nat.le_of_succ_le_succ h)) ?_)
            exact List.mem_filter.mpr ⟨hx2, by simp [hxp]⟩

theorem mem_pyDedup (l : List Flag) (x : Flag) : x ∈ AIBase.pyDedup l ↔ x ∈ l :=
  mem_pyDedupGo _ _ le_rfl x

theorem nodup_pyDedupGo (fuel : Nat) (l : List Flag) (h : l.length ≤ fuel) :
    (AIBase.pyDedupGo fuel l).Nodup := by
  induction fuel generalizing l with
  | zero =>
    have hl : l = [] := List.eq_nil_of_length_eq_zero (Nat.le_zero.mp h)
    subst hl
    simp [AIBase.pyDedupGo]
  | succ n ih =>
    cases l with
    | nil => simp [AIBase.pyDedupGo]
    | cons p ps =>
      simp only [AIBase.pyDedupGo]
      have hlen : (ps.filter (fun q => !(q == p))).length ≤ n :=
        (List.length_filter_le _ ps).trans (Nat.le_of_succ_le_succ h)
      refine List.nodup_cons.mpr ⟨?_, ih _ hlen⟩
      intro hp
      have hp2 := (mem_pyDedupGo n _ hlen p).mp hp
      have := (List.mem_filter.mp hp2).2
      simp at this

theorem nodup_pyDedup (l : List Flag) : (AIBase.pyDedup l).Nodup :=
  nodup_pyDedupGo _ _ le_rfl

/-- Soundness of the line scan: every produced flag carries the scanned
reason and the 1-based number of a line the pattern accepts. -/
theorem flagLinesGo_mem (pred : List Char → Bool) (reason : String) :
    ∀ (lines : List (List Char)) (i : Nat) (p : Flag),
      p ∈ flagLinesGo pred reason i lines →
      p.2 = reason ∧ ∃ j, ∃ h : j < lines.length,
        p.1 = i + j ∧ pred (lines.get ⟨j, h⟩) = true := by
  intro lines
  induction lines with
  | nil => intro i p hp; exact absurd hp (by simp [flagLinesGo])
  | cons ln ls ih =>
    intro i p hp
    simp only [flagLinesGo, List.mem_append] at hp
    rcases hp with hp | hp
    · by_cases hpr : pred ln
      · rw [if_pos hpr] at hp
        simp only [List.mem_singleton] at hp
        subst hp
        exact ⟨rfl, 0, Nat.succ_pos _, by simp, hpr⟩
      · rw [if_neg hpr] at hp
        exact absurd hp (by simp)
    · obtain ⟨h1, j, hj, h2, h3⟩ := ih (i + 1) p hp
      refine ⟨h1, j + 1, Nat.succ_lt_succ hj, by omega, h3⟩

/-- Every flag produced by a whole-text line scan has the reason, a
positive line number, and a matching line of the text. -/
theorem flagLinesBy_mem (pred : List Char → Bool) (reason : String)
    (text : List Char) (p : Flag) (hp : p ∈ flagLinesBy pred reason text) :
    p.2 = reason ∧ ∃ j, ∃ h : j < (splitLines text).length,
      p.1 = j + 1 ∧ pred ((splitLines text).get ⟨j, h⟩) = true := by
  obtain ⟨h1, j, hj, h2, h3⟩ := flagLinesGo_mem pred reason (splitLines text) 1 p hp
  exact ⟨h1, j, hj, by omega, h3⟩

theorem mem_insertSorted (x y : String) (l : List String) :
    x ∈ AIBase.insertSorted y l ↔ x = y ∨ x ∈ l := by
  induction l with
  | nil => simp [AIBase.insertSorted]
  | cons z zs ih =>
    simp only [AIBase.insertSorted]
    split
    · simp
    · rw [List.mem_cons, ih, List.mem_cons]
      tauto

theorem mem_sortStrings (x : String) (l : List String) :
    x ∈ AIBase.sortStrings l ↔ x ∈ l := by
  induction l with
  | nil => simp [AIBase.sortStrings]
  | cons y ys ih =>
    show x ∈ AIBase.insertSorted y (AIBase.sortStrings ys) ↔ _
    rw [mem_insertSorted, ih, List.mem_cons]

/-! Claim C7. -/

/-- C7 counterexample: with a completely empty flag ledger (no recorded
flags, no unsupported functions) the claim's description makes the
attribution output empty — there is nothing to keep and nothing recorded to
derive from.  The code, however, derives a special-handling entry for
`INT` merely because `INT(` occurs in the original text, even though that
reason was never recorded: the derivation is not restricted to *recorded*
special-handling reasons. -/
theorem c7_attach_counterexample :
    ConversionMetrics.init.flagged_lines = [] ∧
    ConversionMetrics.init.unsupported_functions = [] ∧
    (AIBase.attach_flag_line_numbers "SELECT INT(x) FROM t"
        ConversionMetrics.init).flagged_lines
      = [(1, "INT conversion requires manual review")] := by
  exact ⟨rfl, rfl, by decide⟩

/-- C7 (amended): the attribution pass keeps every recorded flag with a
positive line number; its output is a duplicate-free, first-seen-order
sublist of kept-plus-derived entries, where the derived entries come from
the distinct unsupported functions and from the fixed special-handling
reasons that are either recorded in the ledger *or* whose function pattern
occurs in the original text; every derived entry carries the 1-based number
of a line of the original text that matches the word-boundary pattern for
its function. -/
theorem c7_attach_amended (q : String) (m : ConversionMetrics) (hq : q ≠ "") :
    (∀ p ∈ m.flagged_lines, 0 < p.1 →
      p ∈ (AIBase.attach_flag_line_numbers q m).flagged_lines) ∧
    (AIBase.attach_flag_line_numbers q m).flagged_lines.Nodup ∧
    List.Sublist (AIBase.attach_flag_line_numbers q m).flagged_lines
      (m.flagged_lines.filter (fun p => 0 < p.1) ++
        AIBase.derived_unsupported q m ++ AIBase.derived_special q m) ∧
    (∀ p ∈ AIBase.derived_unsupported q m, ∃ f, f ∈ m.unsupported_functions ∧
      p.2 = AIBase.unsupported_reason f ∧
      ∃ j, ∃ h : j < (splitLines q.data).length,
        p.1 = j + 1 ∧ search (AIBase.mFuncPat f) ((splitLines q.data).get ⟨j, h⟩) = true) ∧
    (∀ p ∈ AIBase.derived_special q m, ∃ fr, fr ∈ AIBase.special_to_reason ∧
      p.2 = fr.2 ∧
      ∃ j, ∃ h : j < (splitLines q.data).length,
        p.1 = j + 1 ∧ search (AIBase.mFuncPat fr.1) ((splitLines q.data).get ⟨j, h⟩) = true) := by
  have hout : (AIBase.attach_flag_line_numbers q m).flagged_lines =
      AIBase.pyDedup (m.flagged_lines.filter (fun p => 0 < p.1) ++
        AIBase.derived_unsupported q m ++ AIBase.derived_special q m) := by
    unfold AIBase.attach_flag_line_numbers
    rw [if_neg hq]
  refine ⟨?_, ?_, ?_, ?_, ?_⟩
  · intro p hp hpos
    rw [hout, mem_pyDedup]
    exact List.mem_append_left _ (List.mem_append_left _
      (List.mem_filter.mpr ⟨hp, by simpa using hpos⟩))
  · rw [hout]
    exact nodup_pyDedup _
  · rw [hout]
    exact pyDedup_sublist _
  · intro p hp
    obtain ⟨f, hf, hp2⟩ := List.mem_flatMap.mp hp
    obtain ⟨h1, j, hj, h2, h3⟩ := flagLinesBy_mem _ _ _ p hp2
    exact ⟨f, (mem_sortStrings f _).mp hf, h1, j, hj, h2, h3⟩
  · intro p hp
    obtain ⟨fr, hfr, hp2⟩ := List.mem_flatMap.mp hp
    by_cases hc : m.flagged_lines.any (fun x => AIBase.hasInfix fr.2.data x.2.data) ||
        search (AIBase.mFuncPat fr.1) q.data
    · rw [if_pos hc] at hp2
      obtain ⟨h1, j, hj, h2, h3⟩ := flagLinesBy_mem _ _ _ p hp2
      exact ⟨fr, hfr, h1, j, hj, h2, h3⟩
    · rw [if_neg hc] at hp2
      exact absurd hp2 (by simp)

/-- C7 witness: attribution at a concrete text and ledger — the recorded
positive-line flag is kept in the output. -/
theorem c7_attach_amended_witness :
    "A\nFOO(1)" ≠ "" ∧ (0 : Nat) < 2 ∧
    ((2, "keep me") ∈ (AIBase.attach_flag_line_numbers "A\nFOO(1)"
      { ConversionMetrics.init with
          flagged_lines := [(2, "keep me"), (0, "drop me")],
          flagged_statements := 2,
          unsupported_functions := ["FOO"] }).flagged_lines) :=
  ⟨by decide, by decide,
   (c7_attach_amended "A\nFOO(1)"
     { ConversionMetrics.init with
         flagged_lines := [(2, "keep me"), (0, "drop me")],
         flagged_statements := 2,
         unsupported_functions := ["FOO"] } (by decide)).1
     (2, "keep me") (by decide) (by decide)⟩

/-! Claim C10. -/

/-- C10: after the attribution pass runs (its original text is the
non-empty query), no entry with line number 0 remains in `flaggedLines`;
and for the concrete input `SELECT STARTSWITH(a,'x') FROM t` the flag
recorded at line 0 by the preprocessing (whose reason matches neither an
unsupported-function reason nor a present special-handling pattern) is
removed entirely, so `flaggedStatements = 1` exceeds the length of the
empty `flaggedLines` and the call is counted as a successful conversion
even though a flag was recorded during rewriting. -/
theorem c10_attribution_drop :
    (∀ (q : String) (m : ConversionMetrics), q ≠ "" →
      ∀ p ∈ (AIBase.attach_flag_line_numbers q m).flagged_lines, 0 < p.1) ∧
    (AIBase.convert_query .init
        (fun _ => .ok [[.func "STARTSWITH" [.other "(a,'x')"]]]) (fun s => .ok s)
        (.ofString "SELECT STARTSWITH(a,'x') FROM t")
      = ("CHARINDEX(a,'x')",
         { total_statements := 1, successful_conversions := 1, flagged_statements := 1,
           function_conversions := ⟨0, 2, 0, 0, 0, 0⟩, flagged_lines := [],
           unsupported_functions := [] }, []) ∧
      (1 : Nat) > ([] : List Flag).length) := by
  constructor
  · intro q m hq p hp
    have hout : (AIBase.attach_flag_line_numbers q m).flagged_lines =
        AIBase.pyDedup (m.flagged_lines.filter (fun x => 0 < x.1) ++
          AIBase.derived_unsupported q m ++ AIBase.derived_special q m) := by
      unfold AIBase.attach_flag_line_numbers
      rw [if_neg hq]
    rw [hout, mem_pyDedup] at hp
    rcases List.mem_append.mp hp with hp2 | hp2
    · rcases List.mem_append.mp hp2 with hp3 | hp3
      · simpa using (List.mem_filter.mp hp3).2
      · obtain ⟨f, hf, hx⟩ := List.mem_flatMap.mp hp3
        obtain ⟨_, j, _, h2, _⟩ := flagLinesBy_mem _ _ _ p hx
        omega
    · obtain ⟨fr, hfr, hx⟩ := List.mem_flatMap.mp hp2
      by_cases hc : m.flagged_lines.any (fun x => AIBase.hasInfix fr.2.data x.2.data) ||
          search (AIBase.mFuncPat fr.1) q.data
      · rw [if_pos hc] at hx
        obtain ⟨_, j, _, h2, _⟩ := flagLinesBy_mem _ _ _ p hx
        omega
      · rw [if_neg hc] at hx
        exact absurd hx (by simp)
  · exact ⟨by decide, by decide⟩

/-- C10 witness: the positivity part applied at a concrete query and
ledger. -/
theorem c10_attribution_drop_witness :
    "SELECT INT(x) FROM t" ≠ "" ∧ (0 : Nat) < 1 :=
  ⟨by decide, c10_attribution_drop.1 "SELECT INT(x) FROM t" .init (by decide)
    (1, "INT conversion requires manual review") (by decide)⟩

/-! Symbolic lemmas about the scanners, for the rule-level claims. -/

theorem ciEq_self (c : Char) : ciEq c c = true := by
  simp [ciEq]

theorem ciLit_self (w t : List Char) : ciLit w (w ++ t) = some t := by
  induction w with
  | nil => rfl
  | cons c cs ih => simp [ciLit, ciEq_self, ih]

theorem takeWhile_middle {p : Char → Bool} {l₁ : List Char} (c : Char) (l₂ : List Char)
    (h : ∀ a ∈ l₁, p a = true) (hc : p c = false) :
    (l₁ ++ c :: l₂).takeWhile p = l₁ := by
  induction l₁ with
  | nil => simp [List.takeWhile_cons, hc]
  | cons x xs ih =>
    simp only [List.cons_append, List.takeWhile_cons, h x (by simp), if_true]
    rw [ih (fun a ha => h a (by simp [ha]))]

theorem dropWhile_middle {p : Char → Bool} {l₁ : List Char} (c : Char) (l₂ : List Char)
    (h : ∀ a ∈ l₁, p a = true) (hc : p c = false) :
    (l₁ ++ c :: l₂).dropWhile p = c :: l₂ := by
  induction l₁ with
  | nil => simp [List.dropWhile_cons, hc]
  | cons x xs ih =>
    simp only [List.cons_append, List.dropWhile_cons, h x (by simp), if_true]
    exact ih (fun a ha => h a (by simp [ha]))

theorem takeWhile_all {p : Char → Bool} {l : List Char}
    (h : ∀ a ∈ l, p a = true) : l.takeWhile p = l := by
  induction l with
  | nil => rfl
  | cons x xs ih =>
    simp only [List.takeWhile_cons, h x (by simp), if_true]
    rw [ih (fun a ha => h a (by simp [ha]))]

theorem dropWhile_all {p : Char → Bool} {l : List Char}
    (h : ∀ a ∈ l, p a = true) : l.dropWhile p = [] := by
  induction l with
  | nil => rfl
  | cons x xs ih =>
    simp only [List.dropWhile_cons, h x (by simp), if_true]
    exact ih (fun a ha => h a (by simp [ha]))

theorem lazyCapture_eq {v : List Char} (h1 : v.dropWhile isPySpace = v)
    (hne : v ≠ []) : lazyCapture v = some (dropTrailingWs v) := by
  unfold lazyCapture
  rw [h1]
  cases v with
  | nil => exact absurd rfl hne
  | cons c cs => rfl

theorem pyStrip_eq {v : List Char} (h1 : v.dropWhile isPySpace = v)
    (h2 : dropTrailingWs v = v) : pyStrip v = v := by
  unfold pyStrip
  rw [h1, h2]

theorem substGo_nil (m : Matcher) (fuel : Nat) (prev : Bool) :
    substGo m fuel prev [] = [] := by
  cases fuel <;> rfl

theorem substFGo_nil (m : FMatcher) (fuel : Nat) (prev : Bool) :
    substFGo m fuel prev [] = ([], []) := by
  cases fuel <;> rfl

/-- A pattern that consumes its whole input in one match: the pass output
is just the replacement. -/
theorem subst_single {m : Matcher} {s repl : List Char}
    (h : m false s = some (repl, [])) (hne : s ≠ []) : subst m s = repl := by
  unfold subst
  cases s with
  | nil => exact absurd rfl hne
  | cons c cs =>
    simp only [List.length_cons, substGo, h]
    rw [List.drop_of_length_le (by simp)]
    rw [substGo_nil]
    simp

/-- The flag-collecting analogue of `subst_single`. -/
theorem substF_single {m : FMatcher} {s repl : List Char} {fl : List Flag}
    (h : m false s = some (repl, [], fl)) (hne : s ≠ []) :
    substF m s = (repl, fl) := by
  unfold substF
  cases s with
  | nil => exact absurd rfl hne
  | cons c cs =>
    simp only [List.length_cons, substFGo, h]
    rw [List.drop_of_length_le (by simp)]
    rw [substFGo_nil]
    simp

/-- A pattern matching at the very head of the text is found by `search`. -/
theorem search_head {m : Matcher} {s : List Char} {r : List Char × List Char}
    (h : m false s = some r) (hne : s ≠ []) : search m s = true := by
  unfold search
  cases s with
  | nil => exact absurd rfl hne
  | cons c cs =>
    simp only [List.length_cons, searchGo, h]
    simp

/-- A newline-free text splits into the single line it is. -/
theorem splitLinesGo_single (fuel : Nat) {l : List Char}
    (h : ∀ a ∈ l, (a == '\n') = false) : splitLinesGo fuel l = [l] := by
  cases fuel with
  | zero => rfl
  | succ n =>
    simp only [splitLinesGo]
    rw [dropWhile_all (fun a ha => by simp [h a ha]),
      takeWhile_all (fun a ha => by simp [h a ha])]

theorem splitLines_single {l : List Char}
    (h : ∀ a ∈ l, (a == '\n') = false) : splitLines l = [l] :=
  splitLinesGo_single _ h

theorem digit_not_ws {c : Char} (h : c.isDigit = true) : isPySpace c = false := by
  by_contra hw
  have hw2 : isPySpace c = true := by
    cases hx : isPySpace c
    · exact absurd hx hw
    · rfl
  unfold isPySpace at hw2
  simp only [Bool.or_eq_true, decide_eq_true_eq] at hw2
  rcases hw2 with ((((rfl | rfl) | rfl) | rfl) | rfl) | rfl <;> simp_all

theorem dropWhile_none {p : Char → Bool} {l : List Char}
    (h : ∀ a ∈ l, p a = false) : l.dropWhile p = l := by
  cases l with
  | nil => rfl
  | cons c cs => simp [List.dropWhile_cons, h c (by simp)]

theorem dropWhile_append_of_self {p : Char → Bool} {v : List Char}
    (h : v.dropWhile p = v) (hne : v ≠ []) (x : List Char) :
    (v ++ x).dropWhile p = v ++ x := by
  cases v with
  | nil => exact absurd rfl hne
  | cons c cs =>
    have hc : p c = false := by
      have h2 := List.dropWhile_eq_self_iff.mp h (by simp)
      simpa using h2
    simp [List.dropWhile_cons, hc]

theorem pyStrip_of_none {l : List Char} (h : ∀ a ∈ l, isPySpace a = false) :
    pyStrip l = l := by
  unfold pyStrip dropTrailingWs
  rw [dropWhile_none h, dropWhile_none (fun a ha => h a (List.mem_reverse.mp ha)),
    List.reverse_reverse]

theorem digit_not_nl {c : Char} (h : c.isDigit = true) : (c == '\n') = false := by
  cases hx : c == '\n'
  · rfl
  · exfalso
    have : c = '\n' := by simpa using hx
    subst this
    simp at h

/-- The two-argument quoted pattern matches the whole constructed call
`W(v,'d')` with captures `v` and `d`. -/
theorem mTwoArgQuoted_hit (w : List Char) (b : Bool)
    (mk : List Char → List Char → List Char) (v d : List Char)
    (h1 : v.dropWhile isPySpace = v) (h2 : dropTrailingWs v = v) (hne : v ≠ [])
    (hvc : ∀ a ∈ v, (a == ',') = false) (hdq : ∀ a ∈ d, (a == sqc) = false) :
    mTwoArgQuoted w b mk false (w ++ '(' :: (v ++ ',' :: sqc :: (d ++ sqc :: [')'])))
      = some (mk v d, []) := by
  have htv : (v ++ ',' :: sqc :: (d ++ sqc :: [')'])).takeWhile (fun c => !(c == ',')) = v :=
    takeWhile_middle ',' _ (fun a ha => by simp [hvc a ha]) (by simp)
  have hdv : (v ++ ',' :: sqc :: (d ++ sqc :: [')'])).dropWhile (fun c => !(c == ',')) =
      ',' :: sqc :: (d ++ sqc :: [')']) :=
    dropWhile_middle ',' _ (fun a ha => by simp [hvc a ha]) (by simp)
  have htd : (d ++ sqc :: [')']).takeWhile (fun c => !(c == sqc)) = d :=
    takeWhile_middle sqc _ (fun a ha => by simp [hdq a ha]) (by simp +decide)
  have hdd : (d ++ sqc :: [')']).dropWhile (fun c => !(c == sqc)) = sqc :: [')'] :=
    dropWhile_middle sqc _ (fun a ha => by simp [hdq a ha]) (by simp +decide)
  have hlc : lazyCapture v = some v := by
    rw [lazyCapture_eq h1 hne, h2]
  unfold mTwoArgQuoted
  rw [ciLit_self]
  simp only [if_false, Bool.false_eq_true]
  rw [show dropWs ('(' :: (v ++ ',' :: sqc :: (d ++ sqc :: [')']))) =
    '(' :: (v ++ ',' :: sqc :: (d ++ sqc :: [')'])) from by
      simp +decide [dropWs, List.dropWhile_cons]]
  simp only [htv, hdv, hlc]
  rw [show dropWs (sqc :: (d ++ sqc :: [')'])) = sqc :: (d ++ sqc :: [')']) from by
      simp +decide [dropWs, List.dropWhile_cons]]
  simp +decide only [htd, hdd, pyStrip_eq h1 h2]
  rw [show closeTail b [')'] = some [] from by
      unfold closeTail
      rw [show dropWs [')'] = [')'] from by decide]
      rfl]
  simp

/-! Claim C4. -/

/-- C4 counterexample: `STARTSWITH(F(a,b),'x')` is a two-argument call
whose second argument is a single-quoted literal, but the first argument
contains a comma, which the `[^,]+?` capture cannot cross — so the claim's
promised rewrite to `CHARINDEX('x', F(a,b)) = 1` does not happen: the whole
remap leaves the call verbatim. -/
theorem c4_two_arg_counterexample :
    Main.apply_regex_remapping "SELECT STARTSWITH(F(a,b),'x') FROM t"
      = ("SELECT STARTSWITH(F(a,b),'x') FROM t", []) := by decide

/-- C4 (amended): the Pattern Rewrite Engine's
STARTSWITH/ENDSWITH/CONTAINS/FIND rules rewrite a two-argument call whose
first argument is nonempty, comma-free and without surrounding whitespace
and whose second argument is a single-quoted literal without embedded
quotes to `CHARINDEX('prefix', value) = 1`,
`RIGHT(value, LEN('suffix')) = 'suffix'`, `CHARINDEX('needle', value) > 0`
and `CHARINDEX('needle', value)` respectively; none of these rules records
a flag (their passes are pure text rewrites with no flag side channel, as
the `Matcher` type of the four rules shows); a comma inside the first
argument defeats the pattern and the call is left unchanged. -/
theorem c4_two_arg_amended (v p : List Char)
    (h1 : v.dropWhile isPySpace = v) (h2 : dropTrailingWs v = v) (hne : v ≠ [])
    (hvc : ∀ a ∈ v, (a == ',') = false) (hpq : ∀ a ∈ p, (a == sqc) = false) :
    subst Main.mStartswith
        ("STARTSWITH".data ++ '(' :: (v ++ ',' :: sqc :: (p ++ sqc :: [')'])))
      = "CHARINDEX(".data ++ quoted p ++ ", ".data ++ v ++ ") = 1".data ∧
    subst Main.mEndswith
        ("ENDSWITH".data ++ '(' :: (v ++ ',' :: sqc :: (p ++ sqc :: [')'])))
      = "RIGHT(".data ++ v ++ ", LEN(".data ++ quoted p ++ ")) = ".data ++ quoted p ∧
    subst Main.mContains
        ("CONTAINS".data ++ '(' :: (v ++ ',' :: sqc :: (p ++ sqc :: [')'])))
      = "CHARINDEX(".data ++ quoted p ++ ", ".data ++ v ++ ") > 0".data ∧
    subst Main.mFind
        ("FIND".data ++ '(' :: (v ++ ',' :: sqc :: (p ++ sqc :: [')'])))
      = "CHARINDEX(".data ++ quoted p ++ ", ".data ++ v ++ ")".data := by
  refine ⟨?_, ?_, ?_, ?_⟩ <;>
    exact subst_single (mTwoArgQuoted_hit _ _ _ v p h1 h2 hne hvc hpq) (by simp)

/-- C4 witness: the amended rewrites at the concrete call arguments
`name` and `Mr`. -/
theorem c4_two_arg_amended_witness :
    ("name".data.dropWhile isPySpace = "name".data) ∧
    (dropTrailingWs "name".data = "name".data) ∧
    ("name".data ≠ []) ∧
    (∀ a ∈ "name".data, (a == ',') = false) ∧
    (∀ a ∈ "Mr".data, (a == sqc) = false) ∧
    subst Main.mStartswith
        ("STARTSWITH".data ++ '(' :: ("name".data ++ ',' :: sqc :: ("Mr".data ++ sqc :: [')'])))
      = "CHARINDEX(".data ++ quoted "Mr".data ++ ", ".data ++ "name".data ++ ") = 1".data :=
  ⟨by decide, by decide, by decide, by decide, by decide,
   (c4_two_arg_amended "name".data "Mr".data (by decide) (by decide) (by decide)
     (by decide) (by decide)).1⟩

theorem not_nl_of_mem {l : List Char} (hnl : ¬ '\n' ∈ l) {a : Char} (ha : a ∈ l) :
    (a == '\n') = false := by
  cases hx : a == '\n'
  · rfl
  · exfalso
    have : a = '\n' := by simpa using hx
    exact hnl (this ▸ ha)

theorem isEmpty_false_of_ne_nil {l : List Char} (h : l ≠ []) : l.isEmpty = false := by
  cases l with
  | nil => exact absurd rfl h
  | cons c cs => rfl

/-- The SPLIT capture pattern matches the whole constructed call
`SPLIT(v,'d',n)` with captures `v`, `d` and the digit literal `n`. -/
theorem mSplitCapture_hit (v d n : List Char)
    (h1 : v.dropWhile isPySpace = v) (h2 : dropTrailingWs v = v) (hne : v ≠ [])
    (hvc : ∀ a ∈ v, (a == ',') = false) (hdq : ∀ a ∈ d, (a == sqc) = false)
    (hn : ∀ a ∈ n, a.isDigit = true) (hnne : n ≠ []) :
    mSplitCapture false
        ("SPLIT".data ++ '(' :: (v ++ ',' :: sqc :: (d ++ sqc :: ',' :: (n ++ [')']))))
      = some (v, d, n, []) := by
  have htv : (v ++ ',' :: sqc :: (d ++ sqc :: ',' :: (n ++ [')']))).takeWhile
      (fun c => !(c == ',')) = v :=
    takeWhile_middle ',' _ (fun a ha => by simp [hvc a ha]) (by simp)
  have hdv : (v ++ ',' :: sqc :: (d ++ sqc :: ',' :: (n ++ [')']))).dropWhile
      (fun c => !(c == ',')) = ',' :: sqc :: (d ++ sqc :: ',' :: (n ++ [')'])) :=
    dropWhile_middle ',' _ (fun a ha => by simp [hvc a ha]) (by simp)
  have htd : (d ++ sqc :: ',' :: (n ++ [')'])).takeWhile (fun c => !(c == sqc)) = d :=
    takeWhile_middle sqc _ (fun a ha => by simp [hdq a ha]) (by simp +decide)
  have hdd : (d ++ sqc :: ',' :: (n ++ [')'])).dropWhile (fun c => !(c == sqc)) =
      sqc :: ',' :: (n ++ [')']) :=
    dropWhile_middle sqc _ (fun a ha => by simp [hdq a ha]) (by simp +decide)
  have hlc : lazyCapture v = some v := by
    rw [lazyCapture_eq h1 hne, h2]
  have hnw : (n ++ [')']).dropWhile isPySpace = n ++ [')'] :=
    dropWhile_append_of_self (dropWhile_none (fun a ha => digit_not_ws (hn a ha))) hnne _
  have htn : (n ++ [')']).takeWhile Char.isDigit = n :=
    takeWhile_middle ')' _ hn (by decide)
  have hdn : (n ++ [')']).dropWhile Char.isDigit = [')'] :=
    dropWhile_middle ')' _ hn (by decide)
  have e1 : dropWs ('(' :: (v ++ ',' :: sqc :: (d ++ sqc :: ',' :: (n ++ [')'])))) =
      '(' :: (v ++ ',' :: sqc :: (d ++ sqc :: ',' :: (n ++ [')']))) := by
    simp +decide [dropWs, List.dropWhile_cons]
  have e2 : dropWs (sqc :: (d ++ sqc :: ',' :: (n ++ [')']))) =
      sqc :: (d ++ sqc :: ',' :: (n ++ [')'])) := by
    simp +decide [dropWs, List.dropWhile_cons]
  have e3 : dropWs (',' :: (n ++ [')'])) = ',' :: (n ++ [')']) := by
    simp +decide [dropWs, List.dropWhile_cons]
  have e4 : dropWs (n ++ [')']) = n ++ [')'] := hnw
  have e5 : dropWs [')'] = [')'] := by decide
  unfold mSplitCapture
  rw [ciLit_self]
  simp +decide only [if_false, Bool.false_eq_true, e1, htv, hdv, hlc, e2, htd, hdd,
    e3, e4, htn, hdn, isEmpty_false_of_ne_nil hnne, e5]
  simp

/-- The dynamically built flag pattern of `_split_rewrite` matches the
constructed single-line call `SPLIT(v,'d',n)`. -/
theorem mSplitFlagPat_hit (v d n : List Char)
    (h1 : v.dropWhile isPySpace = v) (hne : v ≠ [])
    (hn : ∀ a ∈ n, a.isDigit = true) (hnne : n ≠ []) :
    mSplitFlagPat v d n false
        ("SPLIT".data ++ '(' :: (v ++ ',' :: sqc :: (d ++ sqc :: ',' :: (n ++ [')']))))
      = some ([], []) := by
  have hnw : (n ++ [')']).dropWhile isPySpace = n ++ [')'] :=
    dropWhile_append_of_self (dropWhile_none (fun a ha => digit_not_ws (hn a ha))) hnne _
  have e1 : dropWs ('(' :: (v ++ ',' :: sqc :: (d ++ sqc :: ',' :: (n ++ [')'])))) =
      '(' :: (v ++ ',' :: sqc :: (d ++ sqc :: ',' :: (n ++ [')']))) := by
    simp +decide [dropWs, List.dropWhile_cons]
  have e2 : dropWs (v ++ ',' :: sqc :: (d ++ sqc :: ',' :: (n ++ [')']))) =
      v ++ ',' :: sqc :: (d ++ sqc :: ',' :: (n ++ [')'])) :=
    dropWhile_append_of_self h1 hne _
  have e3 : ciLit v (v ++ ',' :: sqc :: (d ++ sqc :: ',' :: (n ++ [')']))) =
      some (',' :: sqc :: (d ++ sqc :: ',' :: (n ++ [')']))) := ciLit_self v _
  have e4 : dropWs (',' :: sqc :: (d ++ sqc :: ',' :: (n ++ [')']))) =
      ',' :: sqc :: (d ++ sqc :: ',' :: (n ++ [')'])) := by
    simp +decide [dropWs, List.dropWhile_cons]
  have e5 : dropWs (sqc :: (d ++ sqc :: ',' :: (n ++ [')']))) =
      sqc :: (d ++ sqc :: ',' :: (n ++ [')'])) := by
    simp +decide [dropWs, List.dropWhile_cons]
  have e6 : ciLit d (d ++ sqc :: ',' :: (n ++ [')'])) =
      some (sqc :: ',' :: (n ++ [')'])) := ciLit_self d _
  have e7 : dropWs (',' :: (n ++ [')'])) = ',' :: (n ++ [')']) := by
    simp +decide [dropWs, List.dropWhile_cons]
  have e8 : dropWs (n ++ [')']) = n ++ [')'] := hnw
  have e9 : ciLit n (n ++ [')']) = some [')'] := ciLit_self n _
  have e10 : dropWs [')'] = [')'] := by decide
  unfold mSplitFlagPat
  rw [ciLit_self]
  simp +decide only [if_false, Bool.false_eq_true, e1, e2, e3, e4, e5, e6, e7, e8,
    e9, e10]

/-- The text of a SPLIT call `SPLIT(v,'d',n)`, as scanned by the SPLIT
rule. -/
def splitCall (v d n : List Char) : List Char :=
  "SPLIT".data ++ '(' :: (v ++ ',' :: sqc :: (d ++ sqc :: ',' :: (n ++ [')'])))

theorem splitCall_ne_nil (v d n : List Char) : splitCall v d n ≠ [] := by
  intro h
  unfold splitCall at h
  rw [List.append_eq_nil] at h
  exact absurd h.1 (by decide)

/-! Claim C3. -/

/-- C3 counterexample: a SPLIT call with index 2 whose first argument ends
in a newline is matched and left untouched by the engine, but the per-line
flag scan cannot find the call on any single line — so no flag at all is
recorded, refuting the claim's "for every other value of n ... a flag ...
is recorded". -/
theorem c3_split_counterexample :
    Main.apply_regex_remapping "SELECT SPLIT(a\n,'-',2) FROM t"
      = ("SELECT SPLIT(a\n,'-',2) FROM t", []) := by decide

/-- C3 (amended): a `SPLIT(value, 'delim', n)` call with a numeric-literal
index is rewritten to `SUBSTRING(value, 1, CHARINDEX('delim', value) - 1)`
with no flag recorded when the index literal is exactly `1`; for any other
index literal the call text is left untouched and a "requires manual
rewrite" flag is recorded for each line of the scanned text containing the
whole call (one flag at line 1 when the call is the single-line text; no
flag when the call spans several lines). -/
theorem c3_split_amended (v d n : List Char)
    (h1 : v.dropWhile isPySpace = v) (h2 : dropTrailingWs v = v) (hne : v ≠ [])
    (hvc : ∀ a ∈ v, (a == ',') = false) (hdq : ∀ a ∈ d, (a == sqc) = false)
    (hvnl : ∀ a ∈ v, (a == '\n') = false) (hdnl : ∀ a ∈ d, (a == '\n') = false)
    (hn : ∀ a ∈ n, a.isDigit = true) (hnne : n ≠ []) :
    substF (Main.mSplitRewrite (splitCall v d ['1'])) (splitCall v d ['1'])
      = ("SUBSTRING(".data ++ v ++ ", 1, CHARINDEX(".data ++ quoted d ++
          ", ".data ++ v ++ ") - 1)".data, []) ∧
    (n ≠ ['1'] →
      substF (Main.mSplitRewrite (splitCall v d n)) (splitCall v d n)
        = (splitCall v d n, [(1, splitReason)])) := by
  constructor
  · have cap1 := mSplitCapture_hit v d ['1'] h1 h2 hne hvc hdq (by decide) (by decide)
    have hm1 : Main.mSplitRewrite (splitCall v d ['1']) false (splitCall v d ['1'])
        = some ("SUBSTRING(".data ++ v ++ ", 1, CHARINDEX(".data ++ quoted d ++
            ", ".data ++ v ++ ") - 1)".data, [], []) := by
      unfold Main.mSplitRewrite
      rw [show splitCall v d ['1'] = "SPLIT".data ++
        '(' :: (v ++ ',' :: sqc :: (d ++ sqc :: ',' :: (['1'] ++ [')']))) from rfl]
      rw [cap1]
      simp +decide [pyStrip_eq h1 h2]
    exact substF_single hm1 (splitCall_ne_nil v d ['1'])
  · intro hn1
    have capN := mSplitCapture_hit v d n h1 h2 hne hvc hdq hn hnne
    have flagN := mSplitFlagPat_hit v d n h1 hne hn hnne
    have hsearch : search (mSplitFlagPat v d n) (splitCall v d n) = true :=
      search_head flagN (splitCall_ne_nil v d n)
    have hnl : ∀ a ∈ splitCall v d n, (a == '\n') = false := by
      intro a ha
      unfold splitCall at ha
      rcases List.mem_append.mp ha with h | h
      · exact not_nl_of_mem (by decide) h
      · rcases List.mem_cons.mp h with rfl | h
        · decide
        · rcases List.mem_append.mp h with h | h
          · exact hvnl a h
          · rcases List.mem_cons.mp h with rfl | h
            · decide
            · rcases List.mem_cons.mp h with rfl | h
              · decide
              · rcases List.mem_append.mp h with h | h
                · exact hdnl a h
                · rcases List.mem_cons.mp h with rfl | h
                  · decide
                  · rcases List.mem_cons.mp h with rfl | h
                    · decide
                    · rcases List.mem_append.mp h with h | h
                      · exact digit_not_nl (hn a h)
                      · rcases List.mem_cons.mp h with rfl | h
                        · decide
                        · exact absurd h (List.not_mem_nil a)
    have hflag : flagLinesBy (fun ln => search (mSplitFlagPat v d n) ln) splitReason
        (splitCall v d n) = [(1, splitReason)] := by
      unfold flagLinesBy
      rw [splitLines_single hnl]
      simp [flagLinesGo, hsearch]
    have hps : pyStrip n = n := pyStrip_of_none (fun a ha => digit_not_ws (hn a ha))
    have hmN : Main.mSplitRewrite (splitCall v d n) false (splitCall v d n)
        = some (splitCall v d n, [], [(1, splitReason)]) := by
      unfold Main.mSplitRewrite
      rw [show splitCall v d n = "SPLIT".data ++
        '(' :: (v ++ ',' :: sqc :: (d ++ sqc :: ',' :: (n ++ [')']))) from rfl]
      rw [capN]
      simp only [hps, pyStrip_eq h1 h2]
      rw [if_neg (by simpa using hn1)]
      rw [show ("SPLIT".data ++
        '(' :: (v ++ ',' :: sqc :: (d ++ sqc :: ',' :: (n ++ [')'])))) =
        splitCall v d n from rfl]
      rw [hflag]
      simp [List.take_length]
    exact substF_single hmN (splitCall_ne_nil v d n)

/-- C3 witness: the amended behaviour at the concrete call
`SPLIT(a,'-',n)` for the index literals `1` and `2`. -/
theorem c3_split_amended_witness :
    (∀ a ∈ ['2'], a.isDigit = true) ∧ (['2'] : List Char) ≠ [] ∧
    (['2'] : List Char) ≠ ['1'] ∧
    substF (Main.mSplitRewrite (splitCall "a".data "-".data ['1']))
        (splitCall "a".data "-".data ['1'])
      = ("SUBSTRING(".data ++ "a".data ++ ", 1, CHARINDEX(".data ++
          quoted "-".data ++ ", ".data ++ "a".data ++ ") - 1)".data, []) ∧
    substF (Main.mSplitRewrite (splitCall "a".data "-".data ['2']))
        (splitCall "a".data "-".data ['2'])
      = (splitCall "a".data "-".data ['2'], [(1, splitReason)]) :=
  ⟨by decide, by decide, by decide,
   (c3_split_amended "a".data "-".data ['2'] (by decide) (by decide) (by decide)
     (by decide) (by decide) (by decide) (by decide) (by decide) (by decide)).1,
   (c3_split_amended "a".data "-".data ['2'] (by decide) (by decide) (by decide)
     (by decide) (by decide) (by decide) (by decide) (by decide) (by decide)).2
     (by decide)⟩

end TFSQL
